import Mathlib

/-!
Verification development for the multi-threaded alarm manager.

The C sources are shallowly embedded: the pointer-based doubly linked alarm
table becomes a `List alarm_t` (forward traversal order), pointer mutation of
a located node becomes `List.set` at the node's index, node unlinking becomes
`List.eraseIdx`, and the side-effecting console output of the display /
handler code becomes an explicit list of `LogEvent`s.  The `status` field is
a bitset over the three bits SUSPENDED (1<<0), MOVED (1<<1), REMOVE (1<<2)
with ACTIVE = 0; it is embedded as a record of the three booleans, which is
a bijective model of the values 0..7 actually stored by the program.
-/

/-- `alarm_req_type_t` from include/alarm.h. -/
inductive alarm_req_type_t where
  | REQ_START_ALARM
  | REQ_CHANGE_ALARM
  | REQ_CANCEL_ALARM
  | REQ_SUSPEND_ALARM
  | REQ_REACTIVATE_ALARM
  | REQ_VIEW_ALARMS
deriving DecidableEq, Repr

open alarm_req_type_t

/-- `alarm_status_t` bitset from include/alarm.h: ALARM_ACTIVE = 0,
ALARM_SUSPENDED = 1<<0, ALARM_MOVED = 1<<1, ALARM_REMOVE = 1<<2.
A status value is an OR of the three bits; ACTIVE is the all-zero value. -/
structure AlarmStatus where
  suspended : Bool
  moved : Bool
  remove : Bool
deriving DecidableEq, Repr

/-- Status value `ALARM_ACTIVE` (0, no bits set). -/
def ALARM_ACTIVE : AlarmStatus := ⟨false, false, false⟩

/-- Status value `ALARM_SUSPENDED` (1<<0). -/
def ALARM_SUSPENDED : AlarmStatus := ⟨true, false, false⟩

/-- Status value `ALARM_MOVED` (1<<1). -/
def ALARM_MOVED : AlarmStatus := ⟨false, true, false⟩

/-- Status value `ALARM_REMOVE` (1<<2). -/
def ALARM_REMOVE : AlarmStatus := ⟨false, false, true⟩

/-- `alarm_t` from include/alarm.h.  The intrusive `link`/`prev` pointers are
represented by the position of the record in a `List alarm_t`; `message` is
the char array as a `List Char`. -/
structure alarm_t where
  type : alarm_req_type_t
  status : AlarmStatus
  time_stamp : Int
  time : Int
  expiry : Int
  alarm_id : Int
  group_id : Int
  interval : Int
  message : List Char
deriving DecidableEq, Repr

/-- `alarm_snapshot_t` from display.h. -/
structure alarm_snapshot_t where
  status : AlarmStatus
  time_stamp : Int
  time : Int
  last_print_time : Int
  alarm_id : Int
  group_id : Int
  interval : Int
  message : List Char
deriving DecidableEq, Repr

/-- One `console_print` call, abstracted to the identity of the log line and
the alarm id it reports. -/
inductive LogEvent where
  | stoppedMsg (alarm_id : Int)
  | stoppedExpired (alarm_id : Int)
  | takenOver (alarm_id : Int)
  | changedMsg (alarm_id : Int)
  | changedInterval (alarm_id : Int)
  | printed (alarm_id : Int)
  | suspendedLog (alarm_id : Int)
  | reactivatedLog (alarm_id : Int)
  | invalidChange (alarm_id : Int)
  | changedAlarm (alarm_id : Int)
deriving DecidableEq, Repr

/-! ## Request queue (circular_buffer.c) -/

/-- `CIRCULAR_BUFFER_SIZE` from include/alarm.h. -/
def CIRCULAR_BUFFER_SIZE : Nat := 4

/-- `circular_buffer_t`: the `alarms` array of `CIRCULAR_BUFFER_SIZE` record
pointers is a function from slot index to an abstract pointer id (`Nat`);
`head`, `tail`, `count` as in circular_buffer.h. -/
structure circular_buffer_t where
  alarms : Nat → Nat
  head : Nat
  tail : Nat
  count : Nat

/-- `circular_buffer_init`: head = tail = count = 0 (array contents are
indeterminate in C; fixed to 0 here). -/
def circular_buffer_init : circular_buffer_t :=
  { alarms := fun _ => 0, head := 0, tail := 0, count := 0 }

/-- `circular_buffer_insert`, body after the `not_full` wait (so under the
precondition `count < CIRCULAR_BUFFER_SIZE`): stores at `head`, advances
`head` mod 4, increments `count`, returns the slot index used. -/
def circular_buffer_insert (b : circular_buffer_t) (p : Nat) :
    circular_buffer_t × Nat :=
  let insert_index := b.head
  ({ alarms := fun i => if i = insert_index then p else b.alarms i,
     head := (b.head + 1) % CIRCULAR_BUFFER_SIZE,
     tail := b.tail,
     count := b.count + 1 }, insert_index)

/-- `circular_buffer_remove`, body after the `not_empty` wait (so under the
precondition `0 < count`): reads from `tail`, advances `tail` mod 4,
decrements `count`, returns the removed pointer and the slot index used. -/
def circular_buffer_remove (b : circular_buffer_t) :
    circular_buffer_t × Nat × Nat :=
  ({ alarms := b.alarms,
     head := b.head,
     tail := (b.tail + 1) % CIRCULAR_BUFFER_SIZE,
     count := b.count - 1 }, b.alarms b.tail, b.tail)

/-- An operation on the request queue: the producer inserting pointer `p`,
or the consumer removing the oldest pointer. -/
inductive BufOp where
  | ins (p : Nat)
  | rem
deriving DecidableEq, Repr

/-- Runs a sequence of queue operations from a given state.  Each operation
runs only when its condition-variable predicate holds (`count < 4` for
insert, `0 < count` for remove) — in the program a caller blocks until it
does; a sequence in which a precondition never becomes true is not a
completed execution and yields `none`.  Returns the final state and the
pointers handed out by the removes, in order. -/
def runOps : List BufOp → circular_buffer_t → Option (circular_buffer_t × List Nat)
  | [], b => some (b, [])
  | BufOp.ins p :: rest, b =>
      if b.count < CIRCULAR_BUFFER_SIZE then
        runOps rest (circular_buffer_insert b p).1
      else none
  | BufOp.rem :: rest, b =>
      if 0 < b.count then
        match runOps rest (circular_buffer_remove b).1 with
        | some (bf, outs) => some (bf, (circular_buffer_remove b).2.1 :: outs)
        | none => none
      else none

/-- The abstract FIFO contents of the ring: the `count` stored pointers
starting at `tail`. -/
def absQueue (b : circular_buffer_t) : List Nat :=
  (List.range b.count).map (fun k => b.alarms ((b.tail + k) % CIRCULAR_BUFFER_SIZE))

/-- The pointers inserted by a sequence of operations, in order. -/
def insertedVals (ops : List BufOp) : List Nat :=
  ops.filterMap (fun op => match op with | BufOp.ins p => some p | BufOp.rem => none)

/-- Representation invariant of the ring buffer. -/
def BufInv (b : circular_buffer_t) : Prop :=
  b.count ≤ CIRCULAR_BUFFER_SIZE ∧ b.tail < CIRCULAR_BUFFER_SIZE ∧
    b.head = (b.tail + b.count) % CIRCULAR_BUFFER_SIZE

/-! ## Alarm table (alarm.c) and round robin (display_test.c) -/

/-- `insert_alarm_in_list` from alarm.c: walks the list while the current
record's `time_stamp` is `≤` the new record's, then links the new record in
at that point (head, middle or end). -/
def insert_alarm_in_list (list : List alarm_t) (alarm : alarm_t) : List alarm_t :=
  match list with
  | [] => [alarm]
  | current :: rest =>
      if current.time_stamp ≤ alarm.time_stamp then
        current :: insert_alarm_in_list rest alarm
      else
        alarm :: current :: rest

/-- `find_alarm_by_id` from alarm.c: first record (traversal order) whose
`alarm_id` matches.  The returned index stands for the C pointer. -/
def find_alarm_by_id : List alarm_t → Int → Option (Nat × alarm_t)
  | [], _ => none
  | current :: rest, alarm_id =>
      if current.alarm_id = alarm_id then some (0, current)
      else (find_alarm_by_id rest alarm_id).map (fun p => (p.1 + 1, p.2))

/-- The filter of `get_active_group_ids` (alarm.c): start or change records
whose status equals `ALARM_ACTIVE` or `ALARM_SUSPENDED`. -/
def qualifies (a : alarm_t) : Bool :=
  (a.type == REQ_START_ALARM || a.type == REQ_CHANGE_ALARM) &&
    (a.status == ALARM_ACTIVE || a.status == ALARM_SUSPENDED)

/-- First pass of `get_active_group_ids`: collect group ids of qualifying
records; the loop stops once `max_groups` ids have been collected
(non-qualifying records do not consume the budget). -/
def collectGroups : List alarm_t → Nat → List Int
  | [], _ => []
  | _ :: _, 0 => []
  | a :: rest, Nat.succ k =>
      if qualifies a then a.group_id :: collectGroups rest k
      else collectGroups rest (Nat.succ k)

/-- Second pass of `get_active_group_ids`: in-place adjacent dedupe — keep
`a[0]`, then keep `a[i]` iff `a[i] != a[i-1]`.  `prevv` is the preceding
element of the *input* array, exactly as in the C loop. -/
def dedupeGo (prevv : Int) : List Int → List Int
  | [] => []
  | y :: ys => if y = prevv then dedupeGo y ys else y :: dedupeGo y ys

/-- Entry point of the dedupe pass. -/
def dedupeAdj : List Int → List Int
  | [] => []
  | x :: rest => x :: dedupeGo x rest

/-- `get_active_group_ids` from alarm.c: collect qualifying group ids
(capped at `max_groups`), `qsort` them ascending (`compare_ints` subtracts
the ints, so it sorts ascending; on `Int` any sort yields the same sorted
permutation, modelled with insertion sort), then dedupe adjacent
duplicates.  Returns the resulting list (C returns its length and leaves
the ids in the caller's array). -/
def get_active_group_ids (list : List alarm_t) (max_groups : Nat) : List Int :=
  let collected := collectGroups list max_groups
  match collected with
  | [] => []
  | _ :: _ => dedupeAdj (List.insertionSort (fun x y : Int => x ≤ y) collected)

/-- `is_next_group_to_display` from display_test.c.  `cursor` is the global
`most_recent_displayed_alarm_id`; the routine reads the alarm list and the
cursor and answers whether `group_id` is next in the ascending round-robin
order.  The C array bound `max_groups = 100` is kept. -/
def is_next_group_to_display (alarm_list : List alarm_t) (cursor : Int)
    (group_id : Int) : Bool :=
  let group_ids := get_active_group_ids alarm_list 100
  let count := group_ids.length
  if count = 0 then true
  else if count = 1 then group_ids.getD 0 0 == group_id
  else
    let last_displayed_idx : Option Nat :=
      if 0 ≤ cursor then
        let last_group_id : Int :=
          match alarm_list.find? (fun c => c.alarm_id == cursor) with
          | some c => c.group_id
          | none => -1
        group_ids.findIdx? (fun x => x == last_group_id)
      else none
    match last_displayed_idx with
    | none => group_ids.getD 0 0 == group_id
    | some i => group_ids.getD ((i + 1) % count) 0 == group_id

/-! ## Display utilities (console.c, second part) -/

/-- `create_snapshot` from console.c: copies the alarm's fields into the
snapshot; the status is copied and then, if the alarm carries `ALARM_MOVED`,
that bit is cleared (`alarm->status & ~ALARM_MOVED`) — "Alarm Moved is a
live-only flag".  `last_print_time` is not assigned by the C function; both
call sites `memset` the snapshot to zero first, so it is 0 here. -/
def create_snapshot (alarm : alarm_t) : alarm_snapshot_t :=
  let st := alarm.status
  let st := if alarm.status.moved then { st with moved := false } else st
  { alarm_id := alarm.alarm_id,
    time_stamp := alarm.time_stamp,
    status := st,
    group_id := alarm.group_id,
    interval := alarm.interval,
    time := alarm.time,
    message := alarm.message,
    last_print_time := 0 }

/-- The hand-off test of `update_snapshot` (console.c): the alarm's status
has `ALARM_MOVED` and the snapshot's does not. -/
def moved_handoff_cond (alarm : alarm_t) (snapshot : alarm_snapshot_t) : Bool :=
  alarm.status.moved && !snapshot.status.moved

/-- `update_snapshot` from console.c: reconciles a snapshot with the current
alarm record (`none` models a NULL alarm pointer) at wall-clock `now`,
returning the new snapshot and the log lines printed. -/
def update_snapshot (snapshot : alarm_snapshot_t) (alarm : Option alarm_t)
    (now : Int) : alarm_snapshot_t × List LogEvent :=
  match alarm with
  | none =>
      ({ snapshot with status := ALARM_REMOVE }, [LogEvent.stoppedMsg snapshot.alarm_id])
  | some a =>
      if a.expiry ≤ now then
        ({ snapshot with status := ALARM_REMOVE }, [LogEvent.stoppedExpired snapshot.alarm_id])
      else if a.group_id ≠ snapshot.group_id then
        ({ snapshot with status := ALARM_REMOVE }, [LogEvent.stoppedMsg a.alarm_id])
      else if moved_handoff_cond a snapshot then
        ({ snapshot with status := ALARM_MOVED }, [LogEvent.takenOver a.alarm_id])
      else
        let (s1, e1) :=
          if a.message ≠ snapshot.message then
            ({ snapshot with message := a.message }, [LogEvent.changedMsg a.alarm_id])
          else (snapshot, [])
        let (s2, e2) :=
          if a.interval ≠ snapshot.interval then
            ({ s1 with interval := a.interval }, [LogEvent.changedInterval a.alarm_id])
          else (s1, [])
        ({ s2 with status := a.status }, e1 ++ e2)

/-- `periodic_print` from console.c: returns immediately when the snapshot's
status equals `ALARM_REMOVE` or `ALARM_SUSPENDED`; otherwise prints the
alarm line and stamps `last_print_time` when more than `interval` seconds
have passed since the last print. -/
def periodic_print (snapshot : alarm_snapshot_t) (now : Int) :
    alarm_snapshot_t × List LogEvent :=
  if snapshot.status == ALARM_REMOVE || snapshot.status == ALARM_SUSPENDED then
    (snapshot, [])
  else if now - snapshot.last_print_time > snapshot.interval then
    ({ snapshot with last_print_time := now }, [LogEvent.printed snapshot.alarm_id])
  else (snapshot, [])

/-- One display-loop cycle for one live slot (display_test.c lines
1760-1762 / 1781-1783): `update_snapshot` followed by `periodic_print`. -/
def display_slot_cycle (snapshot : alarm_snapshot_t) (alarm : Option alarm_t)
    (now : Int) : alarm_snapshot_t × List LogEvent :=
  let (s1, e1) := update_snapshot snapshot alarm now
  let (s2, e2) := periodic_print s1 now
  (s2, e1 ++ e2)

/-- The slot-removal step at the end of a `display_alarm_thread` cycle
(display_test.c lines 1773-1777 and 1793-1797), verbatim: after processing,
if `snapshot_1->status == ALARM_REMOVE` then `snapshot_1` is freed and
cleared and the count decremented; then, if `snapshot_2->status ==
ALARM_REMOVE`, the code frees and clears `snapshot_1` (sic) and decrements
the count, leaving `snapshot_2` in place. -/
def removal_step_code (snapshot_1 snapshot_2 : Option alarm_snapshot_t)
    (alarm_count : Int) :
    Option alarm_snapshot_t × Option alarm_snapshot_t × Int :=
  let (s1a, counta) :=
    match snapshot_1 with
    | some x =>
        if x.status == ALARM_REMOVE then (none, alarm_count - 1)
        else (snapshot_1, alarm_count)
    | none => (snapshot_1, alarm_count)
  match snapshot_2 with
  | some y =>
      if y.status == ALARM_REMOVE then (none, snapshot_2, counta - 1)
      else (s1a, snapshot_2, counta)
  | none => (s1a, snapshot_2, counta)

/-! ## Handlers (display_test.c) -/

/-- `find_most_recent_alarm_by_type` from display_test.c, with the index of
the returned record: keeps the first record of the given type whose
`time_stamp` is strictly larger than the best so far. -/
def mostRecentByTypeScan (ty : alarm_req_type_t) :
    List alarm_t → Nat → Option (Nat × alarm_t) → Option (Nat × alarm_t)
  | [], _, acc => acc
  | c :: rest, i, acc =>
      mostRecentByTypeScan ty rest (i + 1)
        (if c.type == ty && acc.all (fun p => decide (p.2.time_stamp < c.time_stamp))
         then some (i, c) else acc)

/-- The Starter's table mutation (display_test.c lines 2028-2035): find the
most recent `REQ_START_ALARM` record and set its status to `ALARM_ACTIVE`;
the record stays in the list. -/
def starter_mark (alarm_list : List alarm_t) : List alarm_t :=
  match mostRecentByTypeScan REQ_START_ALARM alarm_list 0 none with
  | none => alarm_list
  | some (i, a) => alarm_list.set i { a with status := ALARM_ACTIVE }

/-- The Changer's per-request mutation (display_test.c lines 2152-2177):
look up the target by `alarm_id`; if absent log "Invalid Change"; otherwise
copy `time`, `expiry` and `message` from the change request and, when the
`group_id` differs, assign `status = ALARM_MOVED` and overwrite
`group_id`. -/
def apply_change (alarm_list : List alarm_t) (change_alarm : alarm_t) :
    List alarm_t × List LogEvent :=
  match find_alarm_by_id alarm_list change_alarm.alarm_id with
  | none => (alarm_list, [LogEvent.invalidChange change_alarm.alarm_id])
  | some (i, alarm) =>
      let a1 := { alarm with
        time := change_alarm.time,
        expiry := change_alarm.expiry,
        message := change_alarm.message }
      let a2 :=
        if alarm.group_id ≠ change_alarm.group_id then
          { a1 with status := ALARM_MOVED, group_id := change_alarm.group_id }
        else a1
      (alarm_list.set i a2, [LogEvent.changedAlarm alarm.alarm_id])

/-- Suspend- or Reactivate-kind request test. -/
def isSR (c : alarm_t) : Bool :=
  c.type == REQ_SUSPEND_ALARM || c.type == REQ_REACTIVATE_ALARM

/-- The Suspender/Reactivator's request scan (display_test.c lines
2239-2246), with index: keeps the first suspend/reactivate record whose
`time_stamp` is strictly larger than the best so far. -/
def srScan : List alarm_t → Nat → Option (Nat × alarm_t) → Option (Nat × alarm_t)
  | [], _, acc => acc
  | c :: rest, i, acc =>
      srScan rest (i + 1)
        (if isSR c && acc.all (fun p => decide (p.2.time_stamp < c.time_stamp))
         then some (i, c) else acc)

/-- The Suspender/Reactivator's target scan (display_test.c lines
2251-2261), with index: among `REQ_START_ALARM` records with the request's
`alarm_id` and a strictly earlier `time_stamp`, keeps the first whose
`time_stamp` is strictly larger than the best so far. -/
def modScan (req : alarm_t) :
    List alarm_t → Nat → Option (Nat × alarm_t) → Option (Nat × alarm_t)
  | [], _, acc => acc
  | c :: rest, i, acc =>
      modScan req rest (i + 1)
        (if c.type == REQ_START_ALARM && c.alarm_id == req.alarm_id &&
            decide (c.time_stamp < req.time_stamp) &&
            acc.all (fun p => decide (p.2.time_stamp < c.time_stamp))
         then some (i, c) else acc)

/-- One processing pass of `suspend_reactivate_alarm_thread` (display_test.c
lines 2236-2285): pick the most recent suspend/reactivate request; find the
matching earlier start record; Suspend+Active makes it Suspended,
Reactivate+Suspended makes it Active, anything else leaves it unchanged;
when a target was found the request record is unlinked and freed. -/
def suspend_reactivate_pass (alarm_list : List alarm_t) :
    List alarm_t × List LogEvent :=
  match srScan alarm_list 0 none with
  | none => (alarm_list, [])
  | some (ri, req) =>
      match modScan req alarm_list 0 none with
      | none => (alarm_list, [])
      | some (mi, mod_alarm) =>
          let (m2, ev) :=
            if req.type == REQ_SUSPEND_ALARM && mod_alarm.status == ALARM_ACTIVE then
              ({ mod_alarm with status := ALARM_SUSPENDED },
               [LogEvent.suspendedLog mod_alarm.alarm_id])
            else if req.type == REQ_REACTIVATE_ALARM && mod_alarm.status == ALARM_SUSPENDED then
              ({ mod_alarm with status := ALARM_ACTIVE },
               [LogEvent.reactivatedLog mod_alarm.alarm_id])
            else (mod_alarm, [])
          ((alarm_list.set mi m2).eraseIdx ri, ev)

/-! ## Command parsing (alarm.c `parse_command`)

`sscanf` is embedded over `List Char`: an ordinary format character must
match the next input character exactly; a whitespace format character skips
any run of whitespace; `%d` skips whitespace, then reads an optional sign
and at least one digit.  `sscanf(input, fmt, ...)` returns the number of
conversions completed before the first mismatch, and `parse_command`
compares that count with the number of `%d`s in the format, so a
pattern "matches" exactly when every `%d` conversion completed (characters
after the last `%d`, such as the `)` of `Cancel_Alarm(%d)`, cannot affect
the count). -/

/-- C `isspace` characters. -/
def cIsSpace (c : Char) : Bool :=
  c == ' ' || c == '\t' || c == '\n' || c == '\x0b' || c == '\x0c' || c == '\r'

/-- Skip a (possibly empty) run of whitespace. -/
def skipWs (s : List Char) : List Char := s.dropWhile cIsSpace

/-- Value of a digit string. -/
def digitsVal (ds : List Char) : Int :=
  ds.foldl (fun acc c => acc * 10 + ((c.toNat : Int) - 48)) 0

/-- Read one or more digits; fails if the input does not start with one. -/
def scanDigits (s : List Char) : Option (Int × List Char) :=
  let ds := s.takeWhile Char.isDigit
  if ds.isEmpty then none else some (digitsVal ds, s.dropWhile Char.isDigit)

/-- The `%d` conversion: skip whitespace, optional sign, digits. -/
def scanInt (s : List Char) : Option (Int × List Char) :=
  match skipWs s with
  | '-' :: rest => (scanDigits rest).map (fun p => (-p.1, p.2))
  | '+' :: rest => scanDigits rest
  | t => scanDigits t

/-- Match a literal run of format characters exactly. -/
def scanLit : List Char → List Char → Option (List Char)
  | [], s => some s
  | _ :: _, [] => none
  | c :: cs, x :: xs => if x == c then scanLit cs xs else none

/-- Literal prefix of the `Start_Alarm` format, up to the first `%d`. -/
def litStart : List Char := ("Start_Alarm(").toList

/-- Literal prefix of the `Change_Alarm` format. -/
def litChange : List Char := ("Change_Alarm(").toList

/-- Literal prefix of the `Cancel_Alarm` format. -/
def litCancel : List Char := ("Cancel_Alarm(").toList

/-- Literal prefix of the `Suspend_Alarm` format. -/
def litSuspend : List Char := ("Suspend_Alarm(").toList

/-- Literal prefix of the `Reactivate_Alarm` format. -/
def litReactivate : List Char := ("Reactivate_Alarm(").toList

/-- The `View_Alarms` command (compared with `strcmp`). -/
def litView : List Char := ("View_Alarms").toList

/-- Literal `):` appearing after the id in Start/Change formats. -/
def litCloseColon : List Char := ("):").toList

/-- Literal `Group(` of the Start/Change formats. -/
def litGroup : List Char := ("Group(").toList

/-- Literal `)` closing the group id. -/
def litClose : List Char := (")").toList

/-- `sscanf(input, "Start_Alarm(%d): Group(%d) %d %d", ...) == 4`:
returns the four ints when all four conversions complete. -/
def scanStart (s : List Char) : Option (Int × Int × Int × Int) := do
  let s1 ← scanLit litStart s
  let (alarm_id, s2) ← scanInt s1
  let s3 ← scanLit litCloseColon s2
  let s4 ← scanLit litGroup (skipWs s3)
  let (group_id, s5) ← scanInt s4
  let s6 ← scanLit litClose s5
  let (interval, s7) ← scanInt s6
  let (time_value, _) ← scanInt s7
  pure (alarm_id, group_id, interval, time_value)

/-- `sscanf(input, "Change_Alarm(%d): Group(%d) %d", ...) == 3`. -/
def scanChange (s : List Char) : Option (Int × Int × Int) := do
  let s1 ← scanLit litChange s
  let (alarm_id, s2) ← scanInt s1
  let s3 ← scanLit litCloseColon s2
  let s4 ← scanLit litGroup (skipWs s3)
  let (group_id, s5) ← scanInt s4
  let s6 ← scanLit litClose s5
  let (time_value, _) ← scanInt s6
  pure (alarm_id, group_id, time_value)

/-- `sscanf(input, "Cancel_Alarm(%d)", ...) == 1`: the trailing `)` comes
after the only conversion, so it cannot change the returned count. -/
def scanCancel (s : List Char) : Option Int := do
  let s1 ← scanLit litCancel s
  let (alarm_id, _) ← scanInt s1
  pure alarm_id

/-- `sscanf(input, "Suspend_Alarm(%d)", ...) == 1`. -/
def scanSuspend (s : List Char) : Option Int := do
  let s1 ← scanLit litSuspend s
  let (alarm_id, _) ← scanInt s1
  pure alarm_id

/-- `sscanf(input, "Reactivate_Alarm(%d)", ...) == 1`. -/
def scanReactivate (s : List Char) : Option Int := do
  let s1 ← scanLit litReactivate s
  let (alarm_id, _) ← scanInt s1
  pure alarm_id

/-- `strchr(s, ' ')` followed by the `++` past the space: the input after
its first space, or `none`. -/
def strchrSpaceTail (s : List Char) : Option (List Char) :=
  match s.dropWhile (fun c => !(c == ' ')) with
  | [] => none
  | _ :: rest => some rest

/-- The message-locating loop of `parse_command`: skip past `n` spaces. -/
def skipNSpaces : Nat → List Char → Option (List Char)
  | 0, s => some s
  | n + 1, s =>
      match strchrSpaceTail s with
      | none => none
      | some r => skipNSpaces n r

/-- Message extraction: everything after the `n`-th space, truncated by
`strncpy(_, _, MAX_MESSAGE_LEN - 1)`; when no message is found the field
keeps its `memset` value (empty). -/
def extractMessage (input : List Char) (n : Nat) : List Char :=
  match skipNSpaces n input with
  | none => []
  | some m => m.take 127

/-- `parse_command` from alarm.c: tries the command formats in order and
returns the C return value (0 accepted, 1 invalid parameters, 2
unrecognized) together with the filled record (`none` when rejected).
`now` is the `time(NULL)` time stamp taken at entry. -/
def parse_command (now : Int) (input : List Char) : Nat × Option alarm_t :=
  match scanStart input with
  | some (alarm_id, group_id, interval, time_value) =>
      if alarm_id ≤ 0 ∨ group_id ≤ 0 ∨ interval ≤ 0 ∨ time_value ≤ 0 then (1, none)
      else
        (0, some { type := REQ_START_ALARM, status := ALARM_ACTIVE,
                   time_stamp := now, time := time_value,
                   expiry := now + time_value, alarm_id := alarm_id,
                   group_id := group_id, interval := interval,
                   message := extractMessage input 4 })
  | none =>
  match scanChange input with
  | some (alarm_id, group_id, time_value) =>
      if alarm_id ≤ 0 ∨ group_id ≤ 0 ∨ time_value ≤ 0 then (1, none)
      else
        (0, some { type := REQ_CHANGE_ALARM, status := ALARM_ACTIVE,
                   time_stamp := now, time := time_value,
                   expiry := now + time_value, alarm_id := alarm_id,
                   group_id := group_id, interval := 0,
                   message := extractMessage input 3 })
  | none =>
  match scanCancel input with
  | some alarm_id =>
      if alarm_id ≤ 0 then (1, none)
      else
        (0, some { type := REQ_CANCEL_ALARM, status := ALARM_ACTIVE,
                   time_stamp := now, time := 0, expiry := 0,
                   alarm_id := alarm_id, group_id := 0, interval := 0,
                   message := [] })
  | none =>
  match scanSuspend input with
  | some alarm_id =>
      if alarm_id ≤ 0 then (1, none)
      else
        (0, some { type := REQ_SUSPEND_ALARM, status := ALARM_ACTIVE,
                   time_stamp := now, time := 0, expiry := 0,
                   alarm_id := alarm_id, group_id := 0, interval := 0,
                   message := [] })
  | none =>
  match scanReactivate input with
  | some alarm_id =>
      if alarm_id ≤ 0 then (1, none)
      else
        (0, some { type := REQ_REACTIVATE_ALARM, status := ALARM_ACTIVE,
                   time_stamp := now, time := 0, expiry := 0,
                   alarm_id := alarm_id, group_id := 0, interval := 0,
                   message := [] })
  | none =>
  if input = litView then
    (0, some { type := REQ_VIEW_ALARMS, status := ALARM_ACTIVE,
               time_stamp := now, time := 0, expiry := 0, alarm_id := 0,
               group_id := 0, interval := 0, message := [] })
  else (2, none)

/-- Claim-side predicate: some command format matches and its parsed
integer fields include a zero or negative value. -/
def someFormBad (s : List Char) : Prop :=
  (∃ v, scanStart s = some v ∧ (v.1 ≤ 0 ∨ v.2.1 ≤ 0 ∨ v.2.2.1 ≤ 0 ∨ v.2.2.2 ≤ 0)) ∨
  (∃ v, scanChange s = some v ∧ (v.1 ≤ 0 ∨ v.2.1 ≤ 0 ∨ v.2.2 ≤ 0)) ∨
  (∃ n, scanCancel s = some n ∧ n ≤ 0) ∨
  (∃ n, scanSuspend s = some n ∧ n ≤ 0) ∨
  (∃ n, scanReactivate s = some n ∧ n ≤ 0)

/-- Claim-side predicate: the input matches none of the command forms. -/
def noFormMatches (s : List Char) : Prop :=
  scanStart s = none ∧ scanChange s = none ∧ scanCancel s = none ∧
    scanSuspend s = none ∧ scanReactivate s = none ∧ s ≠ litView

/-- Claim-side predicate: some command format matches with all its integer
fields strictly positive (the accepted commands). -/
def someFormGood (s : List Char) : Prop :=
  (∃ v, scanStart s = some v ∧ 0 < v.1 ∧ 0 < v.2.1 ∧ 0 < v.2.2.1 ∧ 0 < v.2.2.2) ∨
  (∃ v, scanChange s = some v ∧ 0 < v.1 ∧ 0 < v.2.1 ∧ 0 < v.2.2) ∨
  (∃ n, scanCancel s = some n ∧ 0 < n) ∨
  (∃ n, scanSuspend s = some n ∧ 0 < n) ∨
  (∃ n, scanReactivate s = some n ∧ 0 < n) ∨
  s = litView

/-! ## C1: slot removal in the display loop -/

/-- Sample snapshot for slot 1: not marked for removal. -/
def c1_snap_active : alarm_snapshot_t :=
  { status := ALARM_ACTIVE, time_stamp := 10, time := 60, last_print_time := 0,
    alarm_id := 1, group_id := 5, interval := 2, message := ("one").toList }

/-- Sample snapshot for slot 2: marked `ALARM_REMOVE`. -/
def c1_snap_remove : alarm_snapshot_t :=
  { status := ALARM_REMOVE, time_stamp := 11, time := 60, last_print_time := 0,
    alarm_id := 2, group_id := 5, interval := 2, message := ("two").toList }

/-- C1: evaluation of the display loop's slot-removal step at the failing
input.  Slot 1's snapshot is live (status Active) and slot 2's snapshot has
status Remove; the code frees and clears slot 1's snapshot and leaves slot
2's snapshot in place, so slot removal is not slot-independent: slot 2
reaching Remove frees and clears slot 1's snapshot. -/
theorem c1_slot_removal_eval :
    c1_snap_active.status = ALARM_ACTIVE ∧
    c1_snap_remove.status = ALARM_REMOVE ∧
    removal_step_code (some c1_snap_active) (some c1_snap_remove) 2 =
      (none, some c1_snap_remove, 1) := by
  decide

/-! ## C10: `create_snapshot` strips the Moved bit -/

/-- C10: `create_snapshot` copies every field of a (non-null) alarm record
into the snapshot but clears the `ALARM_MOVED` status bit, keeping the
other status bits; hence a snapshot freshly materialized from an alarm
carrying Moved satisfies the takeover guard of `update_snapshot` ("alarm
has Moved, snapshot does not"). -/
theorem c10_create_snapshot_strips_moved (a : alarm_t) :
    (create_snapshot a).status.moved = false ∧
    (create_snapshot a).status.suspended = a.status.suspended ∧
    (create_snapshot a).status.remove = a.status.remove ∧
    (create_snapshot a).alarm_id = a.alarm_id ∧
    (create_snapshot a).group_id = a.group_id ∧
    (create_snapshot a).time_stamp = a.time_stamp ∧
    (create_snapshot a).time = a.time ∧
    (create_snapshot a).interval = a.interval ∧
    (create_snapshot a).message = a.message ∧
    (a.status.moved = true → moved_handoff_cond a (create_snapshot a) = true) := by
  by_cases h : a.status.moved <;>
    simp [create_snapshot, moved_handoff_cond, h]

/-- Sample alarm carrying both the Suspended and the Moved bits. -/
def c10_alarm : alarm_t :=
  { type := REQ_START_ALARM, status := ⟨true, true, false⟩, time_stamp := 5,
    time := 60, expiry := 65, alarm_id := 9, group_id := 3, interval := 4,
    message := ("hi").toList }

/-- Witness for C10 at a concrete Moved-carrying alarm. -/
theorem c10_create_snapshot_strips_moved_witness :
    (create_snapshot c10_alarm).status.moved = false ∧
    moved_handoff_cond c10_alarm (create_snapshot c10_alarm) = true :=
  ⟨(c10_create_snapshot_strips_moved c10_alarm).1,
   (c10_create_snapshot_strips_moved c10_alarm).2.2.2.2.2.2.2.2.2 rfl⟩

/-! ## C3: the takeover branch does not suppress the periodic print -/

/-- Alarm that has just moved into group 5 (Moved bit set, not expired). -/
def c3_alarm : alarm_t :=
  { type := REQ_START_ALARM, status := ⟨false, true, false⟩, time_stamp := 5,
    time := 60, expiry := 1000, alarm_id := 7, group_id := 5, interval := 3,
    message := ("msg").toList }

/-- The new scheduler's snapshot of that alarm (Moved not yet
acknowledged, never printed). -/
def c3_snap : alarm_snapshot_t :=
  { status := ALARM_ACTIVE, time_stamp := 5, time := 60, last_print_time := 0,
    alarm_id := 7, group_id := 5, interval := 3, message := ("msg").toList }

/-- C3 counterexample: at this concrete slot state the cycle logs the
takeover and sets the snapshot status to Moved, but the same cycle also
emits the periodic print line — the claim's "emits no periodic print line
for that alarm in that same cycle" is false. -/
theorem c3_counterexample :
    c3_alarm.status.moved = true ∧ c3_snap.status.moved = false ∧
    c3_alarm.group_id = c3_snap.group_id ∧ c3_alarm.expiry = 1000 ∧
    (display_slot_cycle c3_snap (some c3_alarm) 100).2 =
      [LogEvent.takenOver 7, LogEvent.printed 7] ∧
    (display_slot_cycle c3_snap (some c3_alarm) 100).1.status = ALARM_MOVED := by
  decide

/-- C3 amended: when a live, unexpired alarm of the slot's own group has the
Moved flag and the snapshot does not, the cycle logs "Has Taken Over
Printing" and sets the snapshot status to Moved — but printing is not
skipped: `periodic_print` still runs, so the periodic line is emitted in
that same cycle exactly when more than `interval` seconds have passed since
`last_print_time`. -/
theorem c3_amended_takeover (s : alarm_snapshot_t) (a : alarm_t) (now : Int)
    (hexp : ¬ a.expiry ≤ now) (hgrp : a.group_id = s.group_id)
    (hmv : a.status.moved = true) (hsm : s.status.moved = false) :
    display_slot_cycle s (some a) now =
      (if now - s.last_print_time > s.interval then
        ({ s with status := ALARM_MOVED, last_print_time := now },
         [LogEvent.takenOver a.alarm_id, LogEvent.printed s.alarm_id])
       else ({ s with status := ALARM_MOVED }, [LogEvent.takenOver a.alarm_id])) := by
  have hmh : moved_handoff_cond a s = true := by
    simp [moved_handoff_cond, hmv, hsm]
  have e1 : (ALARM_MOVED == ALARM_REMOVE) = false := by decide
  have e2 : (ALARM_MOVED == ALARM_SUSPENDED) = false := by decide
  have h1 : update_snapshot s (some a) now =
      ({ s with status := ALARM_MOVED }, [LogEvent.takenOver a.alarm_id]) := by
    simp [update_snapshot, hexp, hgrp, hmh]
  have h2 : periodic_print { s with status := ALARM_MOVED } now =
      (if now - s.last_print_time > s.interval then
        ({ s with status := ALARM_MOVED, last_print_time := now },
         [LogEvent.printed s.alarm_id])
       else ({ s with status := ALARM_MOVED }, [])) := by
    simp [periodic_print, e1, e2]
  simp only [display_slot_cycle, h1, h2]
  split <;> simp

/-- Witness for the amended C3 at the concrete slot state above. -/
theorem c3_amended_takeover_witness :
    display_slot_cycle c3_snap (some c3_alarm) 100 =
      (if (100 : Int) - c3_snap.last_print_time > c3_snap.interval then
        ({ c3_snap with status := ALARM_MOVED, last_print_time := 100 },
         [LogEvent.takenOver c3_alarm.alarm_id, LogEvent.printed c3_snap.alarm_id])
       else ({ c3_snap with status := ALARM_MOVED },
         [LogEvent.takenOver c3_alarm.alarm_id])) :=
  c3_amended_takeover c3_snap c3_alarm 100 (by decide) (by decide) (by decide)
    (by decide)

/-! ## C4: the Changer's mutation of the target record -/

/-- C4: when the Changer's lookup finds the target Start record, it copies
the request's `time`, `expiry` and `message` into it (leaving id, kind,
time stamp and interval untouched); a differing `group_id` is overwritten
and the Moved status flag is set, while an equal `group_id` leaves both the
`group_id` and the whole status word unchanged. -/
theorem c4_changer_applies (l : List alarm_t) (ch : alarm_t) (i : Nat)
    (a : alarm_t)
    (hfind : find_alarm_by_id l ch.alarm_id = some (i, a))
    (hstart : a.type = REQ_START_ALARM) :
    ∃ a2, (apply_change l ch).1 = l.set i a2 ∧
      a2.time = ch.time ∧ a2.expiry = ch.expiry ∧ a2.message = ch.message ∧
      a2.alarm_id = a.alarm_id ∧ a2.type = a.type ∧
      a2.time_stamp = a.time_stamp ∧ a2.interval = a.interval ∧
      (a.group_id ≠ ch.group_id →
        a2.group_id = ch.group_id ∧ a2.status.moved = true) ∧
      (a.group_id = ch.group_id →
        a2.group_id = a.group_id ∧ a2.status = a.status) := by
  by_cases h : a.group_id = ch.group_id
  · refine ⟨{ a with time := ch.time, expiry := ch.expiry, message := ch.message }, ?_, by simp, by simp, by simp, by simp, by simp, by simp, by simp, fun hne => absurd h hne, fun _ => ⟨by simp, by simp⟩⟩
    simp [apply_change, hfind, h]
  · refine ⟨{ a with time := ch.time, expiry := ch.expiry, message := ch.message, status := ALARM_MOVED, group_id := ch.group_id }, ?_, by simp, by simp, by simp, by simp, by simp, by simp, by simp, fun _ => ⟨by simp, by simp [ALARM_MOVED]⟩, fun he => absurd he h⟩
    simp [apply_change, hfind, h]

/-- Target Start record for the C4 witness. -/
def c4_start : alarm_t :=
  { type := REQ_START_ALARM, status := ALARM_ACTIVE, time_stamp := 10,
    time := 60, expiry := 70, alarm_id := 7, group_id := 1, interval := 5,
    message := ("old").toList }

/-- Change request that moves alarm 7 to group 2. -/
def c4_change : alarm_t :=
  { type := REQ_CHANGE_ALARM, status := ALARM_ACTIVE, time_stamp := 20,
    time := 30, expiry := 50, alarm_id := 7, group_id := 2, interval := 0,
    message := ("new").toList }

/-- Witness for C4 at a one-record table and a group-moving change. -/
theorem c4_changer_applies_witness :
    ∃ a2, (apply_change [c4_start] c4_change).1 = [c4_start].set 0 a2 ∧
      a2.time = c4_change.time ∧ a2.expiry = c4_change.expiry ∧
      a2.message = c4_change.message ∧
      a2.alarm_id = c4_start.alarm_id ∧ a2.type = c4_start.type ∧
      a2.time_stamp = c4_start.time_stamp ∧ a2.interval = c4_start.interval ∧
      (c4_start.group_id ≠ c4_change.group_id →
        a2.group_id = c4_change.group_id ∧ a2.status.moved = true) ∧
      (c4_start.group_id = c4_change.group_id →
        a2.group_id = c4_start.group_id ∧ a2.status = c4_start.status) :=
  c4_changer_applies [c4_start] c4_change 0 c4_start (by decide) (by decide)

/-! ## C8: timestamp-ordered insertion -/

/-- C8: inserting into a list ordered by non-decreasing `time_stamp` yields
a list that contains exactly the old records plus the new one, is still
ordered by non-decreasing `time_stamp`, and places the new record after
every record whose `time_stamp` is less than or equal to its own. -/
theorem c8_insert_ordered (l : List alarm_t) (a : alarm_t)
    (h : l.Pairwise (fun x y => x.time_stamp ≤ y.time_stamp)) :
    (insert_alarm_in_list l a).Pairwise (fun x y => x.time_stamp ≤ y.time_stamp) ∧
    (insert_alarm_in_list l a).Perm (a :: l) ∧
    ∃ l1 l2, insert_alarm_in_list l a = l1 ++ a :: l2 ∧
      (∀ b ∈ l1, b.time_stamp ≤ a.time_stamp) ∧
      (∀ b ∈ l2, a.time_stamp < b.time_stamp) := by
  induction l with
  | nil =>
      exact ⟨by simp [insert_alarm_in_list], List.Perm.refl _, [], [], rfl,
        by simp, by simp⟩
  | cons c rest ih =>
      rw [List.pairwise_cons] at h
      obtain ⟨hc, hrest⟩ := h
      by_cases hle : c.time_stamp ≤ a.time_stamp
      · obtain ⟨ihP, ihPerm, l1, l2, iheq, ih1, ih2⟩ := ih hrest
        have hins : insert_alarm_in_list (c :: rest) a =
            c :: insert_alarm_in_list rest a := by
          simp [insert_alarm_in_list, hle]
        refine ⟨?_, ?_, c :: l1, l2, ?_, ?_, ih2⟩
        · rw [hins, List.pairwise_cons]
          refine ⟨?_, ihP⟩
          intro y hy
          rcases List.mem_cons.mp ((ihPerm.mem_iff).mp hy) with hya | hyr
          · rw [hya]; exact hle
          · exact hc y hyr
        · rw [hins]
          exact (ihPerm.cons c).trans (List.Perm.swap a c rest)
        · rw [hins, iheq]; rfl
        · intro b hb
          rcases List.mem_cons.mp hb with hbc | hbl
          · rw [hbc]; exact hle
          · exact ih1 b hbl
      · have hlt : a.time_stamp < c.time_stamp := lt_of_not_ge hle
        have hins : insert_alarm_in_list (c :: rest) a =
            a :: c :: rest := by
          simp [insert_alarm_in_list, hle]
        refine ⟨?_, by rw [hins], [], c :: rest, by simp [hins], by simp, ?_⟩
        · rw [hins, List.pairwise_cons]
          refine ⟨?_, List.pairwise_cons.mpr ⟨hc, hrest⟩⟩
          intro y hy
          rcases List.mem_cons.mp hy with hyc | hyr
          · rw [hyc]; exact le_of_lt hlt
          · exact le_trans (le_of_lt hlt) (hc y hyr)
        · intro b hb
          rcases List.mem_cons.mp hb with hbc | hbr
          · rw [hbc]; exact hlt
          · exact lt_of_lt_of_le hlt (hc b hbr)

/-- Three records with distinct time stamps for the C8 witness. -/
def c8_a1 : alarm_t :=
  { type := REQ_START_ALARM, status := ALARM_ACTIVE, time_stamp := 10,
    time := 60, expiry := 70, alarm_id := 1, group_id := 1, interval := 5,
    message := ("a").toList }

/-- Second sorted record (time stamp 30). -/
def c8_a2 : alarm_t :=
  { type := REQ_START_ALARM, status := ALARM_ACTIVE, time_stamp := 30,
    time := 60, expiry := 90, alarm_id := 2, group_id := 1, interval := 5,
    message := ("b").toList }

/-- New record with time stamp 20, to be inserted between the two. -/
def c8_mid : alarm_t :=
  { type := REQ_START_ALARM, status := ALARM_ACTIVE, time_stamp := 20,
    time := 60, expiry := 80, alarm_id := 3, group_id := 1, interval := 5,
    message := ("c").toList }

/-- Witness for C8 at a concrete two-record sorted list. -/
theorem c8_insert_ordered_witness :
    (insert_alarm_in_list [c8_a1, c8_a2] c8_mid).Pairwise
      (fun x y => x.time_stamp ≤ y.time_stamp) ∧
    (insert_alarm_in_list [c8_a1, c8_a2] c8_mid).Perm (c8_mid :: [c8_a1, c8_a2]) ∧
    ∃ l1 l2, insert_alarm_in_list [c8_a1, c8_a2] c8_mid = l1 ++ c8_mid :: l2 ∧
      (∀ b ∈ l1, b.time_stamp ≤ c8_mid.time_stamp) ∧
      (∀ b ∈ l2, c8_mid.time_stamp < b.time_stamp) :=
  c8_insert_ordered [c8_a1, c8_a2] c8_mid (by decide)

/-! ## Scan lemmas for the handler passes -/

/-- A result produced by `srScan` either is the accumulator or is a
suspend/reactivate record of the list, recorded with its list index. -/
theorem srScan_some : ∀ (l : List alarm_t) (i : Nat) (acc : Option (Nat × alarm_t))
    (p : Nat × alarm_t), srScan l i acc = some p →
    acc = some p ∨ (isSR p.2 = true ∧ ∃ k, l.get? k = some p.2 ∧ p.1 = i + k)
  | [], i, acc, p => fun h => Or.inl h
  | c :: rest, i, acc, p => fun h => by
      rcases srScan_some rest (i + 1) _ p h with hacc | ⟨hsr, k, hk, hi⟩
      · by_cases hcond : (isSR c &&
            acc.all (fun q => decide (q.2.time_stamp < c.time_stamp))) = true
        · rw [if_pos hcond] at hacc
          right
          obtain ⟨rfl⟩ : p = (i, c) := by
            exact (Option.some.injEq _ _).mp hacc.symm
          refine ⟨(Bool.and_elim_left hcond), 0, by simp, by simp⟩
        · rw [if_neg hcond] at hacc
          exact Or.inl hacc
      · right
        exact ⟨hsr, k + 1, by simpa using hk, by omega⟩

/-- Along `srScan`, the time stamp of the accumulator never decreases. -/
theorem srScan_acc_le : ∀ (l : List alarm_t) (i : Nat) (q : Nat × alarm_t)
    (p : Nat × alarm_t), srScan l i (some q) = some p →
    q.2.time_stamp ≤ p.2.time_stamp
  | [], i, q, p => fun h =>
      le_of_eq (congrArg (fun r : Nat × alarm_t => r.2.time_stamp)
        (Option.some.inj h))
  | c :: rest, i, q, p => fun h => by
      simp only [srScan] at h
      by_cases hcond : (isSR c &&
        (some q).all (fun r => decide (r.2.time_stamp < c.time_stamp))) = true
      · rw [if_pos hcond] at h
        have hlt : q.2.time_stamp < c.time_stamp := by
          have := Bool.and_elim_right hcond
          simpa [Option.all] using this
        have := srScan_acc_le rest (i + 1) (i, c) p h
        exact le_trans (le_of_lt hlt) this
      · rw [if_neg hcond] at h
        exact srScan_acc_le rest (i + 1) q p h

/-- The record returned by `srScan` has the largest time stamp among all
suspend/reactivate records of the list (and at least the accumulator's). -/
theorem srScan_max : ∀ (l : List alarm_t) (i : Nat) (acc : Option (Nat × alarm_t))
    (p : Nat × alarm_t), srScan l i acc = some p →
    ∀ c ∈ l, isSR c = true → c.time_stamp ≤ p.2.time_stamp
  | [], _, _, _ => fun _ c hc => absurd hc (List.not_mem_nil c)
  | c0 :: rest, i, acc, p => fun h c hc hsr => by
      simp only [srScan] at h
      rcases List.mem_cons.mp hc with rfl | hrest
      · by_cases hcond : (isSR c &&
          acc.all (fun q => decide (q.2.time_stamp < c.time_stamp))) = true
        · rw [if_pos hcond] at h
          exact srScan_acc_le rest (i + 1) (i, c) p h
        · have hall : acc.all (fun q => decide (q.2.time_stamp < c.time_stamp)) = false := by
            cases hall : acc.all (fun q => decide (q.2.time_stamp < c.time_stamp))
            · rfl
            · exact absurd (by simp [hsr, hall]) hcond
          obtain ⟨q, rfl⟩ : ∃ q, acc = some q := by
            cases acc with
            | none => simp [Option.all] at hall
            | some q => exact ⟨q, rfl⟩
          have hle : c.time_stamp ≤ q.2.time_stamp := by
            simpa [Option.all, not_lt] using hall
          rw [if_neg hcond] at h
          exact le_trans hle (srScan_acc_le rest (i + 1) q p h)
      · exact srScan_max rest (i + 1) _ p h c hrest hsr

/-- A result produced by `modScan` either is the accumulator or is a start
record of the list with the request's id and a strictly earlier time stamp,
recorded with its list index. -/
theorem modScan_some (req : alarm_t) : ∀ (l : List alarm_t) (i : Nat)
    (acc : Option (Nat × alarm_t)) (p : Nat × alarm_t),
    modScan req l i acc = some p →
    acc = some p ∨ ((p.2.type = REQ_START_ALARM ∧ p.2.alarm_id = req.alarm_id ∧
      p.2.time_stamp < req.time_stamp) ∧ ∃ k, l.get? k = some p.2 ∧ p.1 = i + k)
  | [], i, acc, p => fun h => Or.inl h
  | c :: rest, i, acc, p => fun h => by
      rcases modScan_some req rest (i + 1) _ p h with hacc | ⟨hprops, k, hk, hi⟩
      · by_cases hcond : (c.type == REQ_START_ALARM && c.alarm_id == req.alarm_id &&
            decide (c.time_stamp < req.time_stamp) &&
            acc.all (fun q => decide (q.2.time_stamp < c.time_stamp))) = true
        · rw [if_pos hcond] at hacc
          right
          obtain ⟨rfl⟩ : p = (i, c) := by
            exact (Option.some.injEq _ _).mp hacc.symm
          simp only [Bool.and_eq_true, beq_iff_eq, decide_eq_true_eq] at hcond
          exact ⟨⟨hcond.1.1.1, hcond.1.1.2, hcond.1.2⟩, 0, by simp, by simp⟩
        · rw [if_neg hcond] at hacc
          exact Or.inl hacc
      · right
        exact ⟨hprops, k + 1, by simpa using hk, by omega⟩

/-- Setting a list position to the value it already holds is the identity
(the C code mutates the located node in place; when nothing changes the
list is unchanged). -/
theorem set_get_self : ∀ (l : List alarm_t) (i : Nat) (a : alarm_t),
    l.get? i = some a → l.set i a = l
  | [], _, _ => fun h => by simp at h
  | c :: rest, 0, a => fun h => by
      obtain rfl : c = a := by simpa using h
      rfl
  | c :: rest, i + 1, a => fun h => by
      simp only [List.set_cons_succ]
      rw [set_get_self rest i a (by simpa using h)]

/-! ## C5: the Suspender/Reactivator pass -/

/-- C5: when the Suspender/Reactivator's scans find the most recent
suspend/reactivate request `req` (at index `ri`) and a matching start
record `m` (at index `mi`), then: `req` is a suspend/reactivate record of
the table with the largest time stamp among them; `m` is a Start record
with the same `alarm_id` and a strictly earlier time stamp; Suspend on an
Active alarm makes it Suspended, Reactivate on a Suspended alarm makes it
Active, any other combination leaves the alarm's record unchanged; and in
all cases the request record is unlinked (erased at `ri`). -/
theorem c5_suspend_reactivate (l : List alarm_t) (ri mi : Nat) (req m : alarm_t)
    (h1 : srScan l 0 none = some (ri, req))
    (h2 : modScan req l 0 none = some (mi, m)) :
    (isSR req = true ∧ l.get? ri = some req ∧
      ∀ c ∈ l, isSR c = true → c.time_stamp ≤ req.time_stamp) ∧
    (m.type = REQ_START_ALARM ∧ m.alarm_id = req.alarm_id ∧
      m.time_stamp < req.time_stamp ∧ l.get? mi = some m) ∧
    (req.type = REQ_SUSPEND_ALARM → m.status = ALARM_ACTIVE →
      suspend_reactivate_pass l =
        ((l.set mi { m with status := ALARM_SUSPENDED }).eraseIdx ri,
         [LogEvent.suspendedLog m.alarm_id])) ∧
    (req.type = REQ_REACTIVATE_ALARM → m.status = ALARM_SUSPENDED →
      suspend_reactivate_pass l =
        ((l.set mi { m with status := ALARM_ACTIVE }).eraseIdx ri,
         [LogEvent.reactivatedLog m.alarm_id])) ∧
    (¬(req.type = REQ_SUSPEND_ALARM ∧ m.status = ALARM_ACTIVE) →
     ¬(req.type = REQ_REACTIVATE_ALARM ∧ m.status = ALARM_SUSPENDED) →
      suspend_reactivate_pass l = (l.eraseIdx ri, [])) := by
  have hsrsome := srScan_some l 0 none (ri, req) h1
  rcases hsrsome with hacc | ⟨hsr, k, hk, hik⟩
  · exact absurd hacc (by simp)
  have hgetri : l.get? ri = some req := by
    have hrk : ri = k := by simpa using hik
    rw [hrk]; exact hk
  have hmodsome := modScan_some req l 0 none (mi, m) h2
  rcases hmodsome with hacc | ⟨⟨hty, hid, hts⟩, k2, hk2, hik2⟩
  · exact absurd hacc (by simp)
  have hgetmi : l.get? mi = some m := by
    have hmk : mi = k2 := by simpa using hik2
    rw [hmk]; exact hk2
  refine ⟨⟨hsr, hgetri, srScan_max l 0 none (ri, req) h1⟩,
    ⟨hty, hid, hts, hgetmi⟩, ?_, ?_, ?_⟩
  · intro hreq hst
    simp [suspend_reactivate_pass, h1, h2, hreq, hst]
  · intro hreq hst
    have hne : (REQ_REACTIVATE_ALARM == REQ_SUSPEND_ALARM) = false := by decide
    simp [suspend_reactivate_pass, h1, h2, hreq, hst, hne]
  · intro hns hnr
    have hb1 : (req.type == REQ_SUSPEND_ALARM && m.status == ALARM_ACTIVE) = false := by
      by_cases ht : req.type = REQ_SUSPEND_ALARM
      · by_cases hs : m.status = ALARM_ACTIVE
        · exact absurd ⟨ht, hs⟩ hns
        · simp [hs]
      · simp [ht]
    have hb2 : (req.type == REQ_REACTIVATE_ALARM && m.status == ALARM_SUSPENDED) = false := by
      by_cases ht : req.type = REQ_REACTIVATE_ALARM
      · by_cases hs : m.status = ALARM_SUSPENDED
        · exact absurd ⟨ht, hs⟩ hnr
        · simp [hs]
      · simp [ht]
    simp [suspend_reactivate_pass, h1, h2, hb1, hb2, set_get_self l mi m hgetmi]

/-- Start record for the C5 witness (id 3, time stamp 10, Active). -/
def c5_start : alarm_t :=
  { type := REQ_START_ALARM, status := ALARM_ACTIVE, time_stamp := 10,
    time := 60, expiry := 70, alarm_id := 3, group_id := 2, interval := 5,
    message := ("s").toList }

/-- Suspend request for the C5 witness (id 3, time stamp 20). -/
def c5_req : alarm_t :=
  { type := REQ_SUSPEND_ALARM, status := ALARM_ACTIVE, time_stamp := 20,
    time := 0, expiry := 0, alarm_id := 3, group_id := 0, interval := 0,
    message := [] }

/-- Witness for C5 at a concrete two-record table. -/
theorem c5_suspend_reactivate_witness :
    (isSR c5_req = true ∧ [c5_start, c5_req].get? 1 = some c5_req ∧
      ∀ c ∈ [c5_start, c5_req], isSR c = true →
        c.time_stamp ≤ c5_req.time_stamp) ∧
    (c5_start.type = REQ_START_ALARM ∧ c5_start.alarm_id = c5_req.alarm_id ∧
      c5_start.time_stamp < c5_req.time_stamp ∧
      [c5_start, c5_req].get? 0 = some c5_start) ∧
    (c5_req.type = REQ_SUSPEND_ALARM → c5_start.status = ALARM_ACTIVE →
      suspend_reactivate_pass [c5_start, c5_req] =
        (([c5_start, c5_req].set 0
            { c5_start with status := ALARM_SUSPENDED }).eraseIdx 1,
         [LogEvent.suspendedLog c5_start.alarm_id])) ∧
    (c5_req.type = REQ_REACTIVATE_ALARM → c5_start.status = ALARM_SUSPENDED →
      suspend_reactivate_pass [c5_start, c5_req] =
        (([c5_start, c5_req].set 0
            { c5_start with status := ALARM_ACTIVE }).eraseIdx 1,
         [LogEvent.reactivatedLog c5_start.alarm_id])) ∧
    (¬(c5_req.type = REQ_SUSPEND_ALARM ∧ c5_start.status = ALARM_ACTIVE) →
     ¬(c5_req.type = REQ_REACTIVATE_ALARM ∧ c5_start.status = ALARM_SUSPENDED) →
      suspend_reactivate_pass [c5_start, c5_req] =
        ([c5_start, c5_req].eraseIdx 1, [])) :=
  c5_suspend_reactivate [c5_start, c5_req] 1 0 c5_req c5_start (by decide)
    (by decide)

/-! ## C2: status well-formedness across handler mutations -/

/-- "Exactly one of Active/Suspended/Remove is set": Active is the all-zero
component, so the condition is that the Suspended and Remove bits are not
both set (Moved is the remaining, orthogonal bit). -/
def statusWF (s : AlarmStatus) : Bool := !(s.suspended && s.remove)

/-- `find_alarm_by_id` returns a record of the list together with its
index, and that record carries the searched id. -/
theorem find_alarm_by_id_get : ∀ (l : List alarm_t) (id : Int) (i : Nat)
    (a : alarm_t), find_alarm_by_id l id = some (i, a) →
    l.get? i = some a ∧ a.alarm_id = id
  | [], _, _, _ => fun h => by simp [find_alarm_by_id] at h
  | c :: rest, id, i, a => fun h => by
      by_cases hc : c.alarm_id = id
      · simp only [find_alarm_by_id, if_pos hc] at h
        obtain ⟨h1, h2⟩ : (0 : Nat) = i ∧ c = a := by
          simpa [Prod.ext_iff] using h
        subst h1; subst h2
        exact ⟨rfl, hc⟩
      · simp only [find_alarm_by_id, if_neg hc] at h
        cases hrec : find_alarm_by_id rest id with
        | none => rw [hrec] at h; simp at h
        | some p =>
            rw [hrec] at h
            obtain ⟨j, b⟩ := p
            obtain ⟨h1, h2⟩ : j + 1 = i ∧ b = a := by
              simpa [Prod.ext_iff] using h
            subst h1; subst h2
            have := find_alarm_by_id_get rest id j b hrec
            exact ⟨by simpa using this.1, this.2⟩

/-- Suspended target record for the C2 counterexample (group 1). -/
def c2_target : alarm_t :=
  { type := REQ_START_ALARM, status := ALARM_SUSPENDED, time_stamp := 10,
    time := 60, expiry := 70, alarm_id := 7, group_id := 1, interval := 5,
    message := ("m").toList }

/-- Change request moving alarm 7 to group 2. -/
def c2_change : alarm_t :=
  { type := REQ_CHANGE_ALARM, status := ALARM_ACTIVE, time_stamp := 20,
    time := 30, expiry := 50, alarm_id := 7, group_id := 2, interval := 0,
    message := ("m").toList }

/-- C2 counterexample: a group-changing Change applied to a Suspended
target does not preserve the Active/Suspended/Remove component — the code
assigns `status = ALARM_MOVED` outright, so the Suspended bit is lost and
the resulting component is Active. -/
theorem c2_counterexample :
    c2_target.status.suspended = true ∧
    c2_target.group_id = 1 ∧ c2_change.group_id = 2 ∧
    find_alarm_by_id [c2_target] c2_change.alarm_id = some (0, c2_target) ∧
    (apply_change [c2_target] c2_change).1 =
      [{ c2_target with
          time := c2_change.time,
          expiry := c2_change.expiry,
          message := c2_change.message,
          status := ALARM_MOVED,
          group_id := c2_change.group_id }] ∧
    ALARM_MOVED.suspended = false ∧ ALARM_MOVED.moved = true := by
  decide

/-- C2 amended: after each handler mutation (Starter marking Active, the
Changer applying a change, the Suspender/Reactivator toggling) every record
still has a well-formed status — exactly one of Active/Suspended/Remove,
with Moved an orthogonal extra bit.  However, a group-changing Change does
not preserve the Active/Suspended/Remove component of the target: it
assigns the status to exactly `ALARM_MOVED`, i.e. Active-with-Moved,
discarding a prior Suspended or Remove component. -/
theorem c2_status_invariant (l : List alarm_t) (ch : alarm_t)
    (hWF : ∀ a ∈ l, statusWF a.status = true) :
    (∀ a ∈ starter_mark l, statusWF a.status = true) ∧
    (∀ a ∈ (apply_change l ch).1, statusWF a.status = true) ∧
    (∀ a ∈ (suspend_reactivate_pass l).1, statusWF a.status = true) ∧
    (∀ i a, find_alarm_by_id l ch.alarm_id = some (i, a) →
      a.group_id ≠ ch.group_id →
      (apply_change l ch).1 = l.set i { a with
          time := ch.time,
          expiry := ch.expiry,
          message := ch.message,
          status := ALARM_MOVED,
          group_id := ch.group_id } ∧
      ALARM_MOVED.suspended = false ∧ ALARM_MOVED.remove = false) := by
  refine ⟨?_, ?_, ?_, ?_⟩
  · intro b hb
    cases hscan : mostRecentByTypeScan REQ_START_ALARM l 0 none with
    | none => rw [starter_mark, hscan] at hb; exact hWF b hb
    | some p =>
        obtain ⟨i, a⟩ := p
        rw [starter_mark, hscan] at hb
        rcases List.mem_or_eq_of_mem_set hb with hmem | rfl
        · exact hWF b hmem
        · rfl
  · intro b hb
    cases hfind : find_alarm_by_id l ch.alarm_id with
    | none => rw [apply_change, hfind] at hb; exact hWF b hb
    | some p =>
        obtain ⟨i, a⟩ := p
        have hmem_a : a ∈ l :=
          List.get?_mem (find_alarm_by_id_get l ch.alarm_id i a hfind).1
        rw [apply_change, hfind] at hb
        by_cases hgrp : a.group_id = ch.group_id
        · simp only [hgrp, ne_eq, not_true_eq_false, if_neg,
            not_false_eq_true, if_false] at hb
          rcases List.mem_or_eq_of_mem_set hb with hmem | rfl
          · exact hWF b hmem
          · simpa [statusWF] using hWF a hmem_a
        · simp only [ne_eq, hgrp, not_false_eq_true, if_true, if_pos] at hb
          rcases List.mem_or_eq_of_mem_set hb with hmem | rfl
          · exact hWF b hmem
          · rfl
  · intro b hb
    cases h1 : srScan l 0 none with
    | none => simp only [suspend_reactivate_pass, h1] at hb; exact hWF b hb
    | some p =>
        obtain ⟨ri, req⟩ := p
        cases h2 : modScan req l 0 none with
        | none =>
            simp only [suspend_reactivate_pass, h1, h2] at hb
            exact hWF b hb
        | some q =>
            obtain ⟨mi, m⟩ := q
            have hmem_m : m ∈ l := by
              rcases modScan_some req l 0 none (mi, m) h2 with hacc | ⟨_, k, hk, _⟩
              · exact absurd hacc (by simp)
              · exact List.get?_mem hk
            simp only [suspend_reactivate_pass, h1, h2] at hb
            by_cases hc1 : (req.type == REQ_SUSPEND_ALARM &&
                m.status == ALARM_ACTIVE) = true
            · simp only [hc1, if_true, if_pos] at hb
              rcases List.mem_or_eq_of_mem_set (List.mem_of_mem_eraseIdx hb)
                with hmem | rfl
              · exact hWF b hmem
              · rfl
            · by_cases hc2 : (req.type == REQ_REACTIVATE_ALARM &&
                  m.status == ALARM_SUSPENDED) = true
              · simp only [Bool.not_eq_true] at hc1
                simp only [hc1, hc2, Bool.false_eq_true, if_false, if_true,
                  if_pos, if_neg] at hb
                rcases List.mem_or_eq_of_mem_set (List.mem_of_mem_eraseIdx hb)
                  with hmem | rfl
                · exact hWF b hmem
                · rfl
              · simp only [Bool.not_eq_true] at hc1 hc2
                simp only [hc1, hc2, Bool.false_eq_true, if_false, if_neg] at hb
                rcases List.mem_or_eq_of_mem_set (List.mem_of_mem_eraseIdx hb)
                  with hmem | rfl
                · exact hWF b hmem
                · simpa [statusWF] using hWF _ hmem_m
  · intro i a hfind hgrp
    refine ⟨?_, by decide, by decide⟩
    simp [apply_change, hfind, hgrp]

/-- Witness for the amended C2 at a one-record table and a group-moving
change request. -/
theorem c2_status_invariant_witness :
    (∀ a ∈ starter_mark [c2_target], statusWF a.status = true) ∧
    (∀ a ∈ (apply_change [c2_target] c2_change).1, statusWF a.status = true) ∧
    (∀ a ∈ (suspend_reactivate_pass [c2_target]).1, statusWF a.status = true) ∧
    (∀ i a, find_alarm_by_id [c2_target] c2_change.alarm_id = some (i, a) →
      a.group_id ≠ c2_change.group_id →
      (apply_change [c2_target] c2_change).1 = [c2_target].set i { a with
          time := c2_change.time,
          expiry := c2_change.expiry,
          message := c2_change.message,
          status := ALARM_MOVED,
          group_id := c2_change.group_id } ∧
      ALARM_MOVED.suspended = false ∧ ALARM_MOVED.remove = false) :=
  c2_status_invariant [c2_target] c2_change (by decide)

/-! ## C7: the request queue is a FIFO ring of capacity 4 -/

/-- Inserting under the invariant preserves it, appends the pointer at the
back of the abstract queue, and stores it at the slot index returned. -/
theorem buf_insert_spec (b : circular_buffer_t) (p : Nat)
    (hInv : BufInv b) (hc : b.count < CIRCULAR_BUFFER_SIZE) :
    BufInv (circular_buffer_insert b p).1 ∧
    absQueue (circular_buffer_insert b p).1 = absQueue b ++ [p] := by
  obtain ⟨h4, htail, hhead⟩ := hInv
  simp only [CIRCULAR_BUFFER_SIZE] at h4 htail hhead hc
  constructor
  · refine ⟨?_, ?_, ?_⟩
    · show b.count + 1 ≤ CIRCULAR_BUFFER_SIZE
      simp only [CIRCULAR_BUFFER_SIZE]
      omega
    · show b.tail < CIRCULAR_BUFFER_SIZE
      simp only [CIRCULAR_BUFFER_SIZE]
      omega
    · show (b.head + 1) % CIRCULAR_BUFFER_SIZE =
        (b.tail + (b.count + 1)) % CIRCULAR_BUFFER_SIZE
      simp only [CIRCULAR_BUFFER_SIZE]
      omega
  · simp only [absQueue, circular_buffer_insert]
    rw [List.range_succ, List.map_append]
    congr 1
    · apply List.map_congr_left
      intro k hk
      have hklt : k < b.count := List.mem_range.mp hk
      have hne : (b.tail + k) % CIRCULAR_BUFFER_SIZE ≠ b.head := by
        rw [hhead]
        simp only [CIRCULAR_BUFFER_SIZE]
        omega
      simp [hne]
    · have heq : (b.tail + b.count) % CIRCULAR_BUFFER_SIZE = b.head := by
        rw [hhead]
        simp only [CIRCULAR_BUFFER_SIZE]
      simp [heq]

/-- Removing under the invariant preserves it and pops the front of the
abstract queue, which is the pointer read from the slot index returned. -/
theorem buf_remove_spec (b : circular_buffer_t)
    (hInv : BufInv b) (hc : 0 < b.count) :
    BufInv (circular_buffer_remove b).1 ∧
    absQueue b = (circular_buffer_remove b).2.1 :: absQueue (circular_buffer_remove b).1 := by
  obtain ⟨h4, htail, hhead⟩ := hInv
  simp only [CIRCULAR_BUFFER_SIZE] at h4 htail hhead hc
  constructor
  · refine ⟨?_, ?_, ?_⟩
    · show b.count - 1 ≤ CIRCULAR_BUFFER_SIZE
      simp only [CIRCULAR_BUFFER_SIZE]
      omega
    · show (b.tail + 1) % CIRCULAR_BUFFER_SIZE < CIRCULAR_BUFFER_SIZE
      simp only [CIRCULAR_BUFFER_SIZE]
      omega
    · show b.head = ((b.tail + 1) % CIRCULAR_BUFFER_SIZE + (b.count - 1)) %
        CIRCULAR_BUFFER_SIZE
      rw [hhead]
      simp only [CIRCULAR_BUFFER_SIZE]
      omega
  · simp only [absQueue, circular_buffer_remove]
    obtain ⟨c, hcnt⟩ : ∃ c, b.count = c + 1 := ⟨b.count - 1, by omega⟩
    rw [hcnt]
    rw [List.range_succ_eq_map]
    simp only [List.map_cons, List.map_map]
    congr 1
    · congr 1
      simp only [CIRCULAR_BUFFER_SIZE]
      omega
    · rw [show (c + 1 - 1) = c from rfl]
      apply List.map_congr_left
      intro k hk
      simp only [Function.comp_apply, CIRCULAR_BUFFER_SIZE]
      congr 1
      omega

/-- Running a completed operation sequence preserves the invariant and the
FIFO abstraction: the removed pointers followed by the remaining queue are
the inserted pointers appended to the initial queue. -/
theorem runOps_spec : ∀ (ops : List BufOp) (b : circular_buffer_t),
    BufInv b → ∀ bf outs, runOps ops b = some (bf, outs) →
    BufInv bf ∧ outs ++ absQueue bf = absQueue b ++ insertedVals ops
  | [], b => fun hInv bf outs h => by
      obtain ⟨h1, h2⟩ : b = bf ∧ [] = outs := by
        simpa [runOps, Prod.ext_iff] using h
      subst h1
      refine ⟨hInv, ?_⟩
      rw [← h2]
      simp [insertedVals]
  | BufOp.ins p :: rest, b => fun hInv bf outs h => by
      simp only [runOps] at h
      by_cases hc : b.count < CIRCULAR_BUFFER_SIZE
      · rw [if_pos hc] at h
        obtain ⟨hInv2, habs⟩ := buf_insert_spec b p hInv hc
        obtain ⟨hInvf, habsf⟩ :=
          runOps_spec rest (circular_buffer_insert b p).1 hInv2 bf outs h
        refine ⟨hInvf, ?_⟩
        rw [habsf, habs]
        simp [insertedVals]
      · rw [if_neg hc] at h
        exact absurd h (by simp)
  | BufOp.rem :: rest, b => fun hInv bf outs h => by
      simp only [runOps] at h
      by_cases hc : 0 < b.count
      · rw [if_pos hc] at h
        obtain ⟨hInv2, habs⟩ := buf_remove_spec b hInv hc
        cases hrec : runOps rest (circular_buffer_remove b).1 with
        | none => rw [hrec] at h; simp at h
        | some q =>
            obtain ⟨bf2, outs2⟩ := q
            rw [hrec] at h
            simp only at h
            have hpair := Option.some.inj h
            rw [Prod.mk.injEq] at hpair
            obtain ⟨h1, h2⟩ := hpair
            subst h1
            obtain ⟨hInvf, habsf⟩ :=
              runOps_spec rest (circular_buffer_remove b).1 hInv2 bf2 outs2 hrec
            refine ⟨hInvf, ?_⟩
            rw [← h2]
            simp only [List.cons_append, habsf, habs]
            simp [insertedVals]
      · rw [if_neg hc] at h
        exact absurd h (by simp)

/-- Splitting a run at any point: the combined run succeeds exactly when
the prefix run succeeds and the suffix run succeeds from its final state,
and the outputs concatenate. -/
theorem runOps_append : ∀ (pre post : List BufOp) (b : circular_buffer_t),
    runOps (pre ++ post) b =
      (runOps pre b).bind (fun pr =>
        (runOps post pr.1).map (fun q => (q.1, pr.2 ++ q.2)))
  | [], post, b => by
      simp [runOps]
  | BufOp.ins p :: pre, post, b => by
      simp only [List.cons_append, runOps]
      by_cases hc : b.count < CIRCULAR_BUFFER_SIZE
      · rw [if_pos hc, if_pos hc]
        exact runOps_append pre post (circular_buffer_insert b p).1
      · rw [if_neg hc, if_neg hc]; rfl
  | BufOp.rem :: pre, post, b => by
      simp only [List.cons_append, List.append_eq, runOps]
      by_cases hc : 0 < b.count
      · rw [if_pos hc, if_pos hc]
        have ih := runOps_append pre post (circular_buffer_remove b).1
        rw [ih]
        cases runOps pre (circular_buffer_remove b).1 with
        | none => rfl
        | some pr =>
            simp only [Option.bind]
            cases runOps post pr.1 with
            | none => rfl
            | some q => rfl
      · rw [if_neg hc, if_neg hc]; rfl

/-- C7: for every completed sequence of queue operations from the initial
state, the count never exceeds the capacity 4 (it is bounded in the final
state, and every prefix of the sequence also completes with a bounded
count); the pointers handed out by the removes, followed by the pointers
still in the ring, are exactly the inserted pointers in insertion order
(FIFO); and each insert returns the slot index `head` where it stored its
pointer while each remove returns the slot index `tail` it read its
pointer from. -/
theorem c7_fifo_ring (ops : List BufOp) (bf : circular_buffer_t)
    (outs : List Nat)
    (h : runOps ops circular_buffer_init = some (bf, outs)) :
    bf.count ≤ CIRCULAR_BUFFER_SIZE ∧
    outs ++ absQueue bf = insertedVals ops ∧
    (∀ pre post, ops = pre ++ post →
      ∃ bm om, runOps pre circular_buffer_init = some (bm, om) ∧
        bm.count ≤ CIRCULAR_BUFFER_SIZE) ∧
    (∀ b p, (circular_buffer_insert b p).2 = b.head ∧
      (circular_buffer_insert b p).1.alarms b.head = p) ∧
    (∀ b, (circular_buffer_remove b).2.2 = b.tail ∧
      (circular_buffer_remove b).2.1 = b.alarms b.tail) := by
  have hInv0 : BufInv circular_buffer_init := by
    refine ⟨by simp [circular_buffer_init, CIRCULAR_BUFFER_SIZE], by simp [circular_buffer_init, CIRCULAR_BUFFER_SIZE], by simp [circular_buffer_init]⟩
  have habs0 : absQueue circular_buffer_init = [] := by
    simp [absQueue, circular_buffer_init]
  obtain ⟨hInvf, habsf⟩ := runOps_spec ops circular_buffer_init hInv0 bf outs h
  refine ⟨hInvf.1, by simpa [habs0] using habsf, ?_, ?_, ?_⟩
  · intro pre post hsplit
    rw [hsplit, runOps_append] at h
    cases hpre : runOps pre circular_buffer_init with
    | none => rw [hpre] at h; simp at h
    | some pr =>
        obtain ⟨bm, om⟩ := pr
        obtain ⟨hInvm, _⟩ :=
          runOps_spec pre circular_buffer_init hInv0 bm om hpre
        exact ⟨bm, om, rfl, hInvm.1⟩
  · intro b p
    exact ⟨rfl, by simp [circular_buffer_insert]⟩
  · intro b
    exact ⟨rfl, rfl⟩

/-- A concrete completed operation sequence for the C7 witness. -/
def c7_ops : List BufOp :=
  [BufOp.ins 10, BufOp.ins 20, BufOp.ins 30, BufOp.rem, BufOp.ins 40,
   BufOp.ins 50, BufOp.rem, BufOp.rem]

/-- The final state and outputs of running `c7_ops`. -/
def c7_final : circular_buffer_t × List Nat :=
  (runOps c7_ops circular_buffer_init).getD (circular_buffer_init, [])

/-- Witness for C7 at the concrete operation sequence `c7_ops`. -/
theorem c7_fifo_ring_witness :
    c7_final.1.count ≤ CIRCULAR_BUFFER_SIZE ∧
    c7_final.2 ++ absQueue c7_final.1 = insertedVals c7_ops ∧
    (∀ pre post, c7_ops = pre ++ post →
      ∃ bm om, runOps pre circular_buffer_init = some (bm, om) ∧
        bm.count ≤ CIRCULAR_BUFFER_SIZE) ∧
    (∀ b p, (circular_buffer_insert b p).2 = b.head ∧
      (circular_buffer_insert b p).1.alarms b.head = p) ∧
    (∀ b, (circular_buffer_remove b).2.2 = b.tail ∧
      (circular_buffer_remove b).2.1 = b.alarms b.tail) :=
  c7_fifo_ring c7_ops c7_final.1 c7_final.2 rfl

/-! ## C6: `is_next_group_to_display` -/

/-- With enough budget, the collection pass gathers exactly the group ids
of the qualifying records, in traversal order. -/
theorem collectGroups_eq : ∀ (l : List alarm_t) (n : Nat),
    (l.filter (fun a => qualifies a)).length ≤ n →
    collectGroups l n = (l.filter (fun a => qualifies a)).map (fun a => a.group_id)
  | [], n => fun _ => by simp [collectGroups]
  | a :: rest, n => fun hcap => by
      by_cases hq : qualifies a = true
      · have hfil : (a :: rest).filter (fun a => qualifies a) =
            a :: rest.filter (fun a => qualifies a) := by
          simp [List.filter_cons, hq]
        rw [hfil] at hcap
        simp only [List.length_cons] at hcap
        cases n with
        | zero => omega
        | succ k =>
            have hrest : (rest.filter (fun a => qualifies a)).length ≤ k := by
              omega
            simp only [collectGroups, hq, if_true, hfil, List.map_cons]
            rw [collectGroups_eq rest k hrest]
      · have hfil : (a :: rest).filter (fun a => qualifies a) =
            rest.filter (fun a => qualifies a) := by
          simp [List.filter_cons, hq]
        rw [hfil] at hcap
        cases n with
        | zero =>
            have : rest.filter (fun a => qualifies a) = [] :=
              List.length_eq_zero.mp (by omega)
            simp [collectGroups, hfil, this]
        | succ k =>
            simp only [collectGroups, hq, if_false, Bool.false_eq_true, hfil]
            exact collectGroups_eq rest (Nat.succ k) hcap

/-- Membership in the adjacent-dedupe of a sorted run: exactly the members
of the run other than the preceding value. -/
theorem dedupeGo_mem : ∀ (p : Int) (ys : List Int),
    ys.Pairwise (fun x y : Int => x ≤ y) → (∀ y ∈ ys, p ≤ y) →
    ∀ z, z ∈ dedupeGo p ys ↔ (z ∈ ys ∧ z ≠ p)
  | p, [] => fun _ _ z => by simp [dedupeGo]
  | p, y :: ys => fun hsort hge z => by
      rw [List.pairwise_cons] at hsort
      obtain ⟨hy, hsort'⟩ := hsort
      have hpy : p ≤ y := hge y (List.mem_cons_self y ys)
      by_cases hyp : y = p
      · subst hyp
        rw [show dedupeGo y (y :: ys) = dedupeGo y ys from by simp [dedupeGo]]
        rw [dedupeGo_mem y ys hsort' hy z]
        constructor
        · rintro ⟨hz, hzy⟩
          exact ⟨List.mem_cons_of_mem y hz, hzy⟩
        · rintro ⟨hz, hzy⟩
          rcases List.mem_cons.mp hz with rfl | hz'
          · exact absurd rfl hzy
          · exact ⟨hz', hzy⟩
      · rw [show dedupeGo p (y :: ys) = y :: dedupeGo y ys from by
          simp [dedupeGo, hyp]]
        rw [List.mem_cons, dedupeGo_mem y ys hsort' hy z]
        have hplty : p < y := lt_of_le_of_ne hpy (fun he => hyp he.symm)
        constructor
        · rintro (rfl | ⟨hz, hzy⟩)
          · exact ⟨List.mem_cons_self _ _, by omega⟩
          · have : y ≤ z := hy z hz
            exact ⟨List.mem_cons_of_mem y hz, by omega⟩
        · rintro ⟨hz, hzp⟩
          rcases List.mem_cons.mp hz with rfl | hz'
          · exact Or.inl rfl
          · by_cases hzy : z = y
            · exact Or.inl hzy
            · exact Or.inr ⟨hz', hzy⟩

/-- The adjacent-dedupe of a sorted run is strictly increasing. -/
theorem dedupeGo_sorted : ∀ (p : Int) (ys : List Int),
    ys.Pairwise (fun x y : Int => x ≤ y) → (∀ y ∈ ys, p ≤ y) →
    (dedupeGo p ys).Pairwise (fun x y : Int => x < y)
  | p, [] => fun _ _ => by simp [dedupeGo]
  | p, y :: ys => fun hsort hge => by
      rw [List.pairwise_cons] at hsort
      obtain ⟨hy, hsort'⟩ := hsort
      by_cases hyp : y = p
      · subst hyp
        rw [show dedupeGo y (y :: ys) = dedupeGo y ys from by simp [dedupeGo]]
        exact dedupeGo_sorted y ys hsort' hy
      · rw [show dedupeGo p (y :: ys) = y :: dedupeGo y ys from by
          simp [dedupeGo, hyp]]
        rw [List.pairwise_cons]
        refine ⟨?_, dedupeGo_sorted y ys hsort' hy⟩
        intro z hz
        have := (dedupeGo_mem y ys hsort' hy z).mp hz
        have hyz : y ≤ z := hy z this.1
        exact lt_of_le_of_ne hyz (fun he => this.2 he.symm)

/-- The adjacent-dedupe of a sorted list is strictly increasing and has the
same members. -/
theorem dedupeAdj_spec (s : List Int) (hsort : s.Pairwise (fun x y : Int => x ≤ y)) :
    (dedupeAdj s).Pairwise (fun x y : Int => x < y) ∧
    ∀ z, z ∈ dedupeAdj s ↔ z ∈ s := by
  cases s with
  | nil => exact ⟨by simp [dedupeAdj], fun z => by simp [dedupeAdj]⟩
  | cons x rest =>
      rw [List.pairwise_cons] at hsort
      obtain ⟨hx, hsort'⟩ := hsort
      rw [show dedupeAdj (x :: rest) = x :: dedupeGo x rest from rfl]
      constructor
      · rw [List.pairwise_cons]
        refine ⟨?_, dedupeGo_sorted x rest hsort' hx⟩
        intro z hz
        have := (dedupeGo_mem x rest hsort' hx z).mp hz
        exact lt_of_le_of_ne (hx z this.1) (fun he => this.2 he.symm)
      · intro z
        rw [List.mem_cons, List.mem_cons,
          dedupeGo_mem x rest hsort' hx z]
        constructor
        · rintro (rfl | ⟨hz, _⟩)
          · exact Or.inl rfl
          · exact Or.inr hz
        · rintro (rfl | hz)
          · exact Or.inl rfl
          · by_cases hzx : z = x
            · exact Or.inl hzx
            · exact Or.inr ⟨hz, hzx⟩

/-- Two strictly increasing integer lists with the same members are
equal. -/
theorem sorted_lt_eq_of_mem_iff : ∀ (G1 G2 : List Int),
    G1.Pairwise (fun x y : Int => x < y) → G2.Pairwise (fun x y : Int => x < y) →
    (∀ x, x ∈ G1 ↔ x ∈ G2) → G1 = G2
  | [], G2 => fun _ _ hmem => by
      cases G2 with
      | nil => rfl
      | cons y ys => exact absurd ((hmem y).mpr (List.mem_cons_self y ys)) (by simp)
  | x :: xs, G2 => fun h1 h2 hmem => by
      cases G2 with
      | nil => exact absurd ((hmem x).mp (List.mem_cons_self x xs)) (by simp)
      | cons y ys =>
          rw [List.pairwise_cons] at h1 h2
          obtain ⟨hx, h1'⟩ := h1
          obtain ⟨hy, h2'⟩ := h2
          have hxy : x = y := by
            rcases List.mem_cons.mp ((hmem x).mp (List.mem_cons_self x xs)) with he | hxys
            · exact he
            · rcases List.mem_cons.mp ((hmem y).mpr (List.mem_cons_self y ys)) with he | hyxs
              · exact he.symm
              · have := hy x hxys
                have := hx y hyxs
                omega
          subst hxy
          have htails : ∀ z, z ∈ xs ↔ z ∈ ys := by
            intro z
            constructor
            · intro hz
              have hzx : x < z := hx z hz
              rcases List.mem_cons.mp ((hmem z).mp (List.mem_cons_of_mem x hz)) with rfl | h
              · omega
              · exact h
            · intro hz
              have hzy : x < z := hy z hz
              rcases List.mem_cons.mp ((hmem z).mpr (List.mem_cons_of_mem x hz)) with rfl | h
              · omega
              · exact h
          rw [sorted_lt_eq_of_mem_iff xs ys h1' h2' htails]

/-- `get_active_group_ids` computes THE strictly ascending enumeration of
the active group ids: any strictly sorted list with the same membership as
the qualifying records' group ids is its result. -/
theorem get_active_group_ids_eq (l : List alarm_t) (G : List Int)
    (hcap : (l.filter (fun a => qualifies a)).length ≤ 100)
    (hG1 : G.Pairwise (fun x y : Int => x < y))
    (hG2 : ∀ x : Int, x ∈ G ↔
      x ∈ (l.filter (fun a => qualifies a)).map (fun a => a.group_id)) :
    get_active_group_ids l 100 = G := by
  have hcol := collectGroups_eq l 100 hcap
  cases hcse : (l.filter (fun a => qualifies a)).map (fun a => a.group_id) with
  | nil =>
      have hGnil : G = [] := by
        rw [List.eq_nil_iff_forall_not_mem]
        intro x hx
        have := (hG2 x).mp hx
        rw [hcse] at this
        simp at this
      rw [hGnil]
      rw [hcse] at hcol
      simp [get_active_group_ids, hcol]
  | cons c0 cs0 =>
      have hsorted : (List.insertionSort (fun x y : Int => x ≤ y)
          ((l.filter (fun a => qualifies a)).map (fun a => a.group_id))).Pairwise
          (fun x y : Int => x ≤ y) :=
        List.sorted_insertionSort _ _
      have hperm := List.perm_insertionSort (fun x y : Int => x ≤ y)
        ((l.filter (fun a => qualifies a)).map (fun a => a.group_id))
      obtain ⟨hsd, hmem⟩ := dedupeAdj_spec _ hsorted
      have hcode : get_active_group_ids l 100 =
          dedupeAdj (List.insertionSort (fun x y : Int => x ≤ y)
            ((l.filter (fun a => qualifies a)).map (fun a => a.group_id))) := by
        rw [get_active_group_ids, hcol, hcse]
      rw [hcode]
      apply sorted_lt_eq_of_mem_iff _ _ hsd hG1
      intro x
      rw [hmem x, hperm.mem_iff, hG2 x]

/-- The claim's description of the round-robin test, phrased over the
ascending sorted list `G` of active group ids: true when `G` is empty;
`g` equals the unique group when `G` is a singleton; `g` equals the
smallest group when the cursor does not identify an alarm whose group is in
`G` (including cursor −1); otherwise `g` equals the group at the successor
index, modulo the number of groups. -/
def next_group_spec (l : List alarm_t) (cursor g : Int) (G : List Int) : Bool :=
  if G.length = 0 then true
  else if G.length = 1 then G.getD 0 0 == g
  else
    let cg : Option Int :=
      if 0 ≤ cursor then
        (l.find? (fun c => c.alarm_id == cursor)).map (fun c => c.group_id)
      else none
    match cg with
    | none => G.getD 0 0 == g
    | some grp =>
        match G.findIdx? (fun x => x == grp) with
        | none => G.getD 0 0 == g
        | some i => G.getD ((i + 1) % G.length) 0 == g

/-- C6: for every alarm table whose group ids are positive and hold at most
100 qualifying records, and for the ascending sorted list `G` of its active
group ids, `is_next_group_to_display` answers exactly as the claim's case
analysis over `G` prescribes. -/
theorem c6_round_robin (l : List alarm_t) (cursor g : Int) (G : List Int)
    (hG1 : G.Pairwise (fun x y : Int => x < y))
    (hG2a : ∀ x ∈ G, x ∈ (l.filter (fun a => qualifies a)).map (fun a => a.group_id))
    (hG2b : ∀ x ∈ (l.filter (fun a => qualifies a)).map (fun a => a.group_id), x ∈ G)
    (hcap : (l.filter (fun a => qualifies a)).length ≤ 100)
    (hpos : ∀ a ∈ l, 0 < a.group_id) :
    is_next_group_to_display l cursor g = next_group_spec l cursor g G := by
  have hG2 : ∀ x : Int, x ∈ G ↔
      x ∈ (l.filter (fun a => qualifies a)).map (fun a => a.group_id) :=
    fun x => ⟨hG2a x, hG2b x⟩
  have hGeq := get_active_group_ids_eq l G hcap hG1 hG2
  have hGpos : ∀ x ∈ G, 0 < x := by
    intro x hx
    obtain ⟨a, ha, rfl⟩ := List.mem_map.mp (hG2a x hx)
    exact hpos a (List.mem_of_mem_filter ha)
  rw [is_next_group_to_display, next_group_spec, hGeq]
  by_cases h0 : G.length = 0
  · simp [h0]
  · by_cases h1 : G.length = 1
    · simp [h0, h1]
    · simp only [h0, h1, if_false]
      by_cases hcur : 0 ≤ cursor
      · simp only [hcur, if_true, if_pos]
        cases hfind : l.find? (fun c => c.alarm_id == cursor) with
        | none =>
            have hnone : G.findIdx? (fun x => x == (-1 : Int)) = none := by
              rw [List.findIdx?_eq_none_iff]
              intro x hx
              have hx0 := hGpos x hx
              have hxne : x ≠ (-1 : Int) := by omega
              simp [hxne]
            simp [hnone]
        | some c =>
            rfl
      · simp [hcur]

/-- Active start record in group 3 for the C6 witness. -/
def c6_a1 : alarm_t :=
  { type := REQ_START_ALARM, status := ALARM_ACTIVE, time_stamp := 10,
    time := 60, expiry := 70, alarm_id := 1, group_id := 3, interval := 5,
    message := ("x").toList }

/-- Active start record in group 5 for the C6 witness. -/
def c6_a2 : alarm_t :=
  { type := REQ_START_ALARM, status := ALARM_ACTIVE, time_stamp := 20,
    time := 60, expiry := 80, alarm_id := 2, group_id := 5, interval := 5,
    message := ("y").toList }

/-- Witness for C6: two active groups 3 and 5, cursor on the group-3 alarm,
asking about group 5. -/
theorem c6_round_robin_witness :
    is_next_group_to_display [c6_a1, c6_a2] 1 5 =
      next_group_spec [c6_a1, c6_a2] 1 5 [3, 5] :=
  c6_round_robin [c6_a1, c6_a2] 1 5 [3, 5] (by decide) (by decide) (by decide)
    (by decide) (by decide)

/-! ## C9: `parse_command` return values -/

/-- A successful literal match consumes exactly the literal prefix. -/
theorem scanLit_append : ∀ (lit s r : List Char), scanLit lit s = some r →
    s = lit ++ r
  | [], s, r => fun h => by
      obtain rfl : s = r := by simpa [scanLit] using h
      rfl
  | c :: cs, [], r => fun h => by simp [scanLit] at h
  | c :: cs, x :: xs, r => fun h => by
      by_cases hx : (x == c) = true
      · have hxc : x = c := by simpa using hx
        simp only [scanLit, hx, if_true, if_pos] at h
        rw [List.cons_append, ← hxc]
        rw [scanLit_append cs xs r h]
      · simp [scanLit, hx] at h

/-- A character of the literal prefix is a character of the input. -/
theorem char_of_append (s lit r : List Char) (i : Nat) (a : Char)
    (h : s = lit ++ r) (hA : lit.get? i = some a) : s.get? i = some a := by
  subst h
  have hlen : i < lit.length := by
    by_contra hge
    rw [List.get?_eq_none.mpr (by omega)] at hA
    exact Option.noConfusion hA
  rw [List.get?_append hlen]
  exact hA

/-- The first two input characters of a successful `Start_Alarm` scan. -/
theorem scanStart_chars (s : List Char) (v : Int × Int × Int × Int)
    (h : scanStart s = some v) : s.get? 0 = some 'S' ∧ s.get? 1 = some 't' := by
  cases hl : scanLit litStart s with
  | none => rw [scanStart, hl] at h; simp at h
  | some s1 =>
      have hs := scanLit_append litStart s s1 hl
      exact ⟨char_of_append s litStart s1 0 'S' hs (by decide),
        char_of_append s litStart s1 1 't' hs (by decide)⟩

/-- The first two input characters of a successful `Change_Alarm` scan. -/
theorem scanChange_chars (s : List Char) (v : Int × Int × Int)
    (h : scanChange s = some v) : s.get? 0 = some 'C' ∧ s.get? 1 = some 'h' := by
  cases hl : scanLit litChange s with
  | none => rw [scanChange, hl] at h; simp at h
  | some s1 =>
      have hs := scanLit_append litChange s s1 hl
      exact ⟨char_of_append s litChange s1 0 'C' hs (by decide),
        char_of_append s litChange s1 1 'h' hs (by decide)⟩

/-- The first two input characters of a successful `Cancel_Alarm` scan. -/
theorem scanCancel_chars (s : List Char) (v : Int)
    (h : scanCancel s = some v) : s.get? 0 = some 'C' ∧ s.get? 1 = some 'a' := by
  cases hl : scanLit litCancel s with
  | none => rw [scanCancel, hl] at h; simp at h
  | some s1 =>
      have hs := scanLit_append litCancel s s1 hl
      exact ⟨char_of_append s litCancel s1 0 'C' hs (by decide),
        char_of_append s litCancel s1 1 'a' hs (by decide)⟩

/-- The first two input characters of a successful `Suspend_Alarm` scan. -/
theorem scanSuspend_chars (s : List Char) (v : Int)
    (h : scanSuspend s = some v) : s.get? 0 = some 'S' ∧ s.get? 1 = some 'u' := by
  cases hl : scanLit litSuspend s with
  | none => rw [scanSuspend, hl] at h; simp at h
  | some s1 =>
      have hs := scanLit_append litSuspend s s1 hl
      exact ⟨char_of_append s litSuspend s1 0 'S' hs (by decide),
        char_of_append s litSuspend s1 1 'u' hs (by decide)⟩

/-- The first input character of a successful `Reactivate_Alarm` scan. -/
theorem scanReactivate_chars (s : List Char) (v : Int)
    (h : scanReactivate s = some v) : s.get? 0 = some 'R' := by
  cases hl : scanLit litReactivate s with
  | none => rw [scanReactivate, hl] at h; simp at h
  | some s1 =>
      have hs := scanLit_append litReactivate s s1 hl
      exact char_of_append s litReactivate s1 0 'R' hs (by decide)

/-- At most one command format matches: a successful `Start_Alarm` scan
excludes every other form. -/
theorem start_excl (s : List Char) (v : Int × Int × Int × Int)
    (h : scanStart s = some v) :
    scanChange s = none ∧ scanCancel s = none ∧ scanSuspend s = none ∧
    scanReactivate s = none ∧ s ≠ litView := by
  obtain ⟨h0, h1⟩ := scanStart_chars s v h
  refine ⟨?_, ?_, ?_, ?_, ?_⟩
  · cases hc : scanChange s with
    | none => rfl
    | some w =>
        have := (scanChange_chars s w hc).1
        rw [h0] at this
        simp at this
  · cases hc : scanCancel s with
    | none => rfl
    | some w =>
        have := (scanCancel_chars s w hc).1
        rw [h0] at this
        simp at this
  · cases hc : scanSuspend s with
    | none => rfl
    | some w =>
        have := (scanSuspend_chars s w hc).2
        rw [h1] at this
        simp at this
  · cases hc : scanReactivate s with
    | none => rfl
    | some w =>
        have := scanReactivate_chars s w hc
        rw [h0] at this
        simp at this
  · intro he
    rw [he] at h0
    simp [litView] at h0

/-- A successful `Change_Alarm` scan excludes the later forms. -/
theorem change_excl (s : List Char) (v : Int × Int × Int)
    (h : scanChange s = some v) :
    scanCancel s = none ∧ scanSuspend s = none ∧ scanReactivate s = none ∧
    s ≠ litView := by
  obtain ⟨h0, h1⟩ := scanChange_chars s v h
  refine ⟨?_, ?_, ?_, ?_⟩
  · cases hc : scanCancel s with
    | none => rfl
    | some w =>
        have := (scanCancel_chars s w hc).2
        rw [h1] at this
        simp at this
  · cases hc : scanSuspend s with
    | none => rfl
    | some w =>
        have := (scanSuspend_chars s w hc).1
        rw [h0] at this
        simp at this
  · cases hc : scanReactivate s with
    | none => rfl
    | some w =>
        have := scanReactivate_chars s w hc
        rw [h0] at this
        simp at this
  · intro he
    rw [he] at h0
    simp [litView] at h0

/-- A successful `Cancel_Alarm` scan excludes the later forms. -/
theorem cancel_excl (s : List Char) (v : Int) (h : scanCancel s = some v) :
    scanSuspend s = none ∧ scanReactivate s = none ∧ s ≠ litView := by
  obtain ⟨h0, h1⟩ := scanCancel_chars s v h
  refine ⟨?_, ?_, ?_⟩
  · cases hc : scanSuspend s with
    | none => rfl
    | some w =>
        have := (scanSuspend_chars s w hc).1
        rw [h0] at this
        simp at this
  · cases hc : scanReactivate s with
    | none => rfl
    | some w =>
        have := scanReactivate_chars s w hc
        rw [h0] at this
        simp at this
  · intro he
    rw [he] at h0
    simp [litView] at h0

/-- A successful `Suspend_Alarm` scan excludes the later forms. -/
theorem suspend_excl (s : List Char) (v : Int) (h : scanSuspend s = some v) :
    scanReactivate s = none ∧ s ≠ litView := by
  obtain ⟨h0, h1⟩ := scanSuspend_chars s v h
  refine ⟨?_, ?_⟩
  · cases hc : scanReactivate s with
    | none => rfl
    | some w =>
        have := scanReactivate_chars s w hc
        rw [h0] at this
        simp at this
  · intro he
    rw [he] at h0
    simp [litView] at h0

/-- A successful `Reactivate_Alarm` scan excludes `View_Alarms`. -/
theorem reactivate_excl (s : List Char) (v : Int)
    (h : scanReactivate s = some v) : s ≠ litView := by
  have h0 := scanReactivate_chars s v h
  intro he
  rw [he] at h0
  simp [litView] at h0

/-- C9: `parse_command` returns 1 exactly on the command forms whose parsed
integer fields include a zero or negative value, 2 exactly when the input
matches none of the command forms, and 0 exactly when a form matches with
all integer fields strictly positive (an accepted command). -/
theorem c9_parse_command (now : Int) (s : List Char) :
    ((parse_command now s).1 = 1 ↔ someFormBad s) ∧
    ((parse_command now s).1 = 2 ↔ noFormMatches s) ∧
    ((parse_command now s).1 = 0 ↔ someFormGood s) := by
  cases hSt : scanStart s with
  | some v =>
      obtain ⟨a1, a2, a3, a4⟩ := v
      obtain ⟨hCh, hCa, hSu, hRe, hV⟩ := start_excl s _ hSt
      have hnm : ¬ noFormMatches s := fun hn => absurd hn.1 (by simp [hSt])
      by_cases hbad : a1 ≤ 0 ∨ a2 ≤ 0 ∨ a3 ≤ 0 ∨ a4 ≤ 0
      · have hres : (parse_command now s).1 = 1 := by
          simp [parse_command, hSt, hbad]
        rw [hres]
        have hng : ¬ someFormGood s := by
          rintro (⟨v', hv', hp⟩ | ⟨v', hv', hp⟩ | ⟨n, hn', hp⟩ |
            ⟨n, hn', hp⟩ | ⟨n, hn', hp⟩ | hview)
          · rw [hSt] at hv'
            obtain rfl := Option.some.inj hv'
            simp at hp
            omega
          · rw [hCh] at hv'; exact Option.noConfusion hv'
          · rw [hCa] at hn'; exact Option.noConfusion hn'
          · rw [hSu] at hn'; exact Option.noConfusion hn'
          · rw [hRe] at hn'; exact Option.noConfusion hn'
          · exact hV hview
        refine ⟨⟨fun _ => Or.inl ⟨(a1, a2, a3, a4), hSt, hbad⟩, fun _ => rfl⟩,
          iff_of_false (by norm_num) hnm, iff_of_false (by norm_num) hng⟩
      · have hres : (parse_command now s).1 = 0 := by
          simp [parse_command, hSt, hbad]
        rw [hres]
        have hgood : 0 < a1 ∧ 0 < a2 ∧ 0 < a3 ∧ 0 < a4 := by omega
        have hnb : ¬ someFormBad s := by
          rintro (⟨v', hv', hp⟩ | ⟨v', hv', hp⟩ | ⟨n, hn', hp⟩ |
            ⟨n, hn', hp⟩ | ⟨n, hn', hp⟩)
          · rw [hSt] at hv'
            obtain rfl := Option.some.inj hv'
            simp at hp
            omega
          · rw [hCh] at hv'; exact Option.noConfusion hv'
          · rw [hCa] at hn'; exact Option.noConfusion hn'
          · rw [hSu] at hn'; exact Option.noConfusion hn'
          · rw [hRe] at hn'; exact Option.noConfusion hn'
        refine ⟨iff_of_false (by norm_num) hnb, iff_of_false (by norm_num) hnm,
          ⟨fun _ => Or.inl ⟨(a1, a2, a3, a4), hSt, hgood.1, hgood.2.1,
            hgood.2.2.1, hgood.2.2.2⟩, fun _ => rfl⟩⟩
  | none =>
  cases hCh : scanChange s with
  | some v =>
      obtain ⟨a1, a2, a3⟩ := v
      obtain ⟨hCa, hSu, hRe, hV⟩ := change_excl s _ hCh
      have hnm : ¬ noFormMatches s := fun hn => absurd hn.2.1 (by simp [hCh])
      by_cases hbad : a1 ≤ 0 ∨ a2 ≤ 0 ∨ a3 ≤ 0
      · have hres : (parse_command now s).1 = 1 := by
          simp [parse_command, hSt, hCh, hbad]
        rw [hres]
        have hng : ¬ someFormGood s := by
          rintro (⟨v', hv', hp⟩ | ⟨v', hv', hp⟩ | ⟨n, hn', hp⟩ |
            ⟨n, hn', hp⟩ | ⟨n, hn', hp⟩ | hview)
          · rw [hSt] at hv'; exact Option.noConfusion hv'
          · rw [hCh] at hv'
            obtain rfl := Option.some.inj hv'
            simp at hp
            omega
          · rw [hCa] at hn'; exact Option.noConfusion hn'
          · rw [hSu] at hn'; exact Option.noConfusion hn'
          · rw [hRe] at hn'; exact Option.noConfusion hn'
          · exact hV hview
        refine ⟨⟨fun _ => Or.inr (Or.inl ⟨(a1, a2, a3), hCh, hbad⟩),
          fun _ => rfl⟩, iff_of_false (by norm_num) hnm,
          iff_of_false (by norm_num) hng⟩
      · have hres : (parse_command now s).1 = 0 := by
          simp [parse_command, hSt, hCh, hbad]
        rw [hres]
        have hgood : 0 < a1 ∧ 0 < a2 ∧ 0 < a3 := by omega
        have hnb : ¬ someFormBad s := by
          rintro (⟨v', hv', hp⟩ | ⟨v', hv', hp⟩ | ⟨n, hn', hp⟩ |
            ⟨n, hn', hp⟩ | ⟨n, hn', hp⟩)
          · rw [hSt] at hv'; exact Option.noConfusion hv'
          · rw [hCh] at hv'
            obtain rfl := Option.some.inj hv'
            simp at hp
            omega
          · rw [hCa] at hn'; exact Option.noConfusion hn'
          · rw [hSu] at hn'; exact Option.noConfusion hn'
          · rw [hRe] at hn'; exact Option.noConfusion hn'
        refine ⟨iff_of_false (by norm_num) hnb, iff_of_false (by norm_num) hnm,
          ⟨fun _ => Or.inr (Or.inl ⟨(a1, a2, a3), hCh, hgood.1, hgood.2.1,
            hgood.2.2⟩), fun _ => rfl⟩⟩
  | none =>
  cases hCa : scanCancel s with
  | some n0 =>
      obtain ⟨hSu, hRe, hV⟩ := cancel_excl s _ hCa
      have hnm : ¬ noFormMatches s := fun hn => absurd hn.2.2.1 (by simp [hCa])
      by_cases hbad : n0 ≤ 0
      · have hres : (parse_command now s).1 = 1 := by
          simp [parse_command, hSt, hCh, hCa, hbad]
        rw [hres]
        have hng : ¬ someFormGood s := by
          rintro (⟨v', hv', hp⟩ | ⟨v', hv', hp⟩ | ⟨n, hn', hp⟩ |
            ⟨n, hn', hp⟩ | ⟨n, hn', hp⟩ | hview)
          · rw [hSt] at hv'; exact Option.noConfusion hv'
          · rw [hCh] at hv'; exact Option.noConfusion hv'
          · rw [hCa] at hn'
            obtain rfl := Option.some.inj hn'
            omega
          · rw [hSu] at hn'; exact Option.noConfusion hn'
          · rw [hRe] at hn'; exact Option.noConfusion hn'
          · exact hV hview
        refine ⟨⟨fun _ => Or.inr (Or.inr (Or.inl ⟨n0, hCa, hbad⟩)),
          fun _ => rfl⟩, iff_of_false (by norm_num) hnm,
          iff_of_false (by norm_num) hng⟩
      · have hres : (parse_command now s).1 = 0 := by
          simp [parse_command, hSt, hCh, hCa, hbad]
        rw [hres]
        have hnb : ¬ someFormBad s := by
          rintro (⟨v', hv', hp⟩ | ⟨v', hv', hp⟩ | ⟨n, hn', hp⟩ |
            ⟨n, hn', hp⟩ | ⟨n, hn', hp⟩)
          · rw [hSt] at hv'; exact Option.noConfusion hv'
          · rw [hCh] at hv'; exact Option.noConfusion hv'
          · rw [hCa] at hn'
            obtain rfl := Option.some.inj hn'
            omega
          · rw [hSu] at hn'; exact Option.noConfusion hn'
          · rw [hRe] at hn'; exact Option.noConfusion hn'
        refine ⟨iff_of_false (by norm_num) hnb, iff_of_false (by norm_num) hnm,
          ⟨fun _ => Or.inr (Or.inr (Or.inl ⟨n0, hCa, by omega⟩)),
            fun _ => rfl⟩⟩
  | none =>
  cases hSu : scanSuspend s with
  | some n0 =>
      obtain ⟨hRe, hV⟩ := suspend_excl s _ hSu
      have hnm : ¬ noFormMatches s := fun hn => absurd hn.2.2.2.1 (by simp [hSu])
      by_cases hbad : n0 ≤ 0
      · have hres : (parse_command now s).1 = 1 := by
          simp [parse_command, hSt, hCh, hCa, hSu, hbad]
        rw [hres]
        have hng : ¬ someFormGood s := by
          rintro (⟨v', hv', hp⟩ | ⟨v', hv', hp⟩ | ⟨n, hn', hp⟩ |
            ⟨n, hn', hp⟩ | ⟨n, hn', hp⟩ | hview)
          · rw [hSt] at hv'; exact Option.noConfusion hv'
          · rw [hCh] at hv'; exact Option.noConfusion hv'
          · rw [hCa] at hn'; exact Option.noConfusion hn'
          · rw [hSu] at hn'
            obtain rfl := Option.some.inj hn'
            omega
          · rw [hRe] at hn'; exact Option.noConfusion hn'
          · exact hV hview
        refine ⟨⟨fun _ => Or.inr (Or.inr (Or.inr (Or.inl ⟨n0, hSu, hbad⟩))),
          fun _ => rfl⟩, iff_of_false (by norm_num) hnm,
          iff_of_false (by norm_num) hng⟩
      · have hres : (parse_command now s).1 = 0 := by
          simp [parse_command, hSt, hCh, hCa, hSu, hbad]
        rw [hres]
        have hnb : ¬ someFormBad s := by
          rintro (⟨v', hv', hp⟩ | ⟨v', hv', hp⟩ | ⟨n, hn', hp⟩ |
            ⟨n, hn', hp⟩ | ⟨n, hn', hp⟩)
          · rw [hSt] at hv'; exact Option.noConfusion hv'
          · rw [hCh] at hv'; exact Option.noConfusion hv'
          · rw [hCa] at hn'; exact Option.noConfusion hn'
          · rw [hSu] at hn'
            obtain rfl := Option.some.inj hn'
            omega
          · rw [hRe] at hn'; exact Option.noConfusion hn'
        refine ⟨iff_of_false (by norm_num) hnb, iff_of_false (by norm_num) hnm,
          ⟨fun _ => Or.inr (Or.inr (Or.inr (Or.inl ⟨n0, hSu, by omega⟩))),
            fun _ => rfl⟩⟩
  | none =>
  cases hRe : scanReactivate s with
  | some n0 =>
      have hV := reactivate_excl s _ hRe
      have hnm : ¬ noFormMatches s := fun hn =>
        absurd hn.2.2.2.2.1 (by simp [hRe])
      by_cases hbad : n0 ≤ 0
      · have hres : (parse_command now s).1 = 1 := by
          simp [parse_command, hSt, hCh, hCa, hSu, hRe, hbad]
        rw [hres]
        have hng : ¬ someFormGood s := by
          rintro (⟨v', hv', hp⟩ | ⟨v', hv', hp⟩ | ⟨n, hn', hp⟩ |
            ⟨n, hn', hp⟩ | ⟨n, hn', hp⟩ | hview)
          · rw [hSt] at hv'; exact Option.noConfusion hv'
          · rw [hCh] at hv'; exact Option.noConfusion hv'
          · rw [hCa] at hn'; exact Option.noConfusion hn'
          · rw [hSu] at hn'; exact Option.noConfusion hn'
          · rw [hRe] at hn'
            obtain rfl := Option.some.inj hn'
            omega
          · exact hV hview
        refine ⟨⟨fun _ => Or.inr (Or.inr (Or.inr (Or.inr
          ⟨n0, hRe, hbad⟩))), fun _ => rfl⟩,
          iff_of_false (by norm_num) hnm, iff_of_false (by norm_num) hng⟩
      · have hres : (parse_command now s).1 = 0 := by
          simp [parse_command, hSt, hCh, hCa, hSu, hRe, hbad]
        rw [hres]
        have hnb : ¬ someFormBad s := by
          rintro (⟨v', hv', hp⟩ | ⟨v', hv', hp⟩ | ⟨n, hn', hp⟩ |
            ⟨n, hn', hp⟩ | ⟨n, hn', hp⟩)
          · rw [hSt] at hv'; exact Option.noConfusion hv'
          · rw [hCh] at hv'; exact Option.noConfusion hv'
          · rw [hCa] at hn'; exact Option.noConfusion hn'
          · rw [hSu] at hn'; exact Option.noConfusion hn'
          · rw [hRe] at hn'
            obtain rfl := Option.some.inj hn'
            omega
        refine ⟨iff_of_false (by norm_num) hnb, iff_of_false (by norm_num) hnm,
          ⟨fun _ => Or.inr (Or.inr (Or.inr (Or.inr (Or.inl
            ⟨n0, hRe, by omega⟩)))), fun _ => rfl⟩⟩
  | none =>
  by_cases hV : s = litView
  · have hres : (parse_command now s).1 = 0 := by
      simp only [parse_command, hSt, hCh, hCa, hSu, hRe]
      rw [if_pos hV]
    rw [hres]
    have hnb : ¬ someFormBad s := by
      rintro (⟨v', hv', hp⟩ | ⟨v', hv', hp⟩ | ⟨n, hn', hp⟩ |
        ⟨n, hn', hp⟩ | ⟨n, hn', hp⟩)
      · rw [hSt] at hv'; exact Option.noConfusion hv'
      · rw [hCh] at hv'; exact Option.noConfusion hv'
      · rw [hCa] at hn'; exact Option.noConfusion hn'
      · rw [hSu] at hn'; exact Option.noConfusion hn'
      · rw [hRe] at hn'; exact Option.noConfusion hn'
    have hnm : ¬ noFormMatches s := fun hn => hn.2.2.2.2.2 hV
    exact ⟨iff_of_false (by norm_num) hnb, iff_of_false (by norm_num) hnm,
      ⟨fun _ => Or.inr (Or.inr (Or.inr (Or.inr (Or.inr hV)))), fun _ => rfl⟩⟩
  · have hres : (parse_command now s).1 = 2 := by
      simp [parse_command, hSt, hCh, hCa, hSu, hRe, hV]
    rw [hres]
    have hnb : ¬ someFormBad s := by
      rintro (⟨v', hv', hp⟩ | ⟨v', hv', hp⟩ | ⟨n, hn', hp⟩ |
        ⟨n, hn', hp⟩ | ⟨n, hn', hp⟩)
      · rw [hSt] at hv'; exact Option.noConfusion hv'
      · rw [hCh] at hv'; exact Option.noConfusion hv'
      · rw [hCa] at hn'; exact Option.noConfusion hn'
      · rw [hSu] at hn'; exact Option.noConfusion hn'
      · rw [hRe] at hn'; exact Option.noConfusion hn'
    have hng : ¬ someFormGood s := by
      rintro (⟨v', hv', hp⟩ | ⟨v', hv', hp⟩ | ⟨n, hn', hp⟩ |
        ⟨n, hn', hp⟩ | ⟨n, hn', hp⟩ | hview)
      · rw [hSt] at hv'; exact Option.noConfusion hv'
      · rw [hCh] at hv'; exact Option.noConfusion hv'
      · rw [hCa] at hn'; exact Option.noConfusion hn'
      · rw [hSu] at hn'; exact Option.noConfusion hn'
      · rw [hRe] at hn'; exact Option.noConfusion hn'
      · exact hV hview
    exact ⟨iff_of_false (by norm_num) hnb,
      ⟨fun _ => ⟨hSt, hCh, hCa, hSu, hRe, hV⟩, fun _ => rfl⟩,
      iff_of_false (by norm_num) hng⟩
